import Mathlib

/-!
Verification of the humancode debug orchestrator core.

This file gives a shallow embedding of the core subsystems of the
repository (phase machine, session manager, breakpoint registry and tools,
DAP correlator and framing decoder, adapter operations) and proves, or
refutes, the specified properties about them.  Each definition mirrors the
corresponding TypeScript function; environment responses (debug adapter
replies) are passed in as explicit inputs.
-/

/-! ## Phase machine (packages/opencode src/session/debug-phase.ts) -/

inductive Phase
  | PLANNING
  | CODING
  | BREAKPOINTING
  | DEBUGGING
  | EXPLAINING
  | CONFIRMING
  deriving DecidableEq, Repr

def phaseName : Phase → String
  | .PLANNING => "PLANNING"
  | .CODING => "CODING"
  | .BREAKPOINTING => "BREAKPOINTING"
  | .DEBUGGING => "DEBUGGING"
  | .EXPLAINING => "EXPLAINING"
  | .CONFIRMING => "CONFIRMING"

/-- The `VALID_TRANSITIONS` table from debug-phase.ts. -/
def validTransitions : Phase → List Phase
  | .PLANNING => [.CODING]
  | .CODING => [.BREAKPOINTING]
  | .BREAKPOINTING => [.DEBUGGING]
  | .DEBUGGING => [.EXPLAINING]
  | .EXPLAINING => [.CONFIRMING]
  | .CONFIRMING => [.PLANNING]

/-- The unique successor of each phase in the ring
`PLANNING → CODING → BREAKPOINTING → DEBUGGING → EXPLAINING → CONFIRMING → PLANNING`. -/
def phaseSuccessor : Phase → Phase
  | .PLANNING => .CODING
  | .CODING => .BREAKPOINTING
  | .BREAKPOINTING => .DEBUGGING
  | .DEBUGGING => .EXPLAINING
  | .EXPLAINING => .CONFIRMING
  | .CONFIRMING => .PLANNING

structure PhaseState where
  sessionID : String
  currentPhase : Phase
  currentStep : Nat
  totalSteps : Option Nat
  stepDescriptions : List String
  autoConfirm : Bool
  deriving DecidableEq, Repr

/-- Function `DebugPhase.create`. -/
def DebugPhase.create (sessionID : String) : PhaseState :=
  ⟨sessionID, .PLANNING, 0, none, [], false⟩

def joinComma : List String → String
  | [] => ""
  | [x] => x
  | x :: xs => x ++ ", " ++ joinComma xs

/-- Function `DebugPhase.transition`: a throw is modelled by `Except.error`. -/
def DebugPhase.transition (state : PhaseState) (tgt : Phase) : Except String PhaseState :=
  let allowed := validTransitions state.currentPhase
  if tgt ∈ allowed then
    let nextStep :=
      if state.currentPhase = .CONFIRMING ∧ tgt = .PLANNING then state.currentStep + 1
      else state.currentStep
    .ok { state with currentPhase := tgt, currentStep := nextStep }
  else
    .error ("Cannot transition from " ++ phaseName state.currentPhase ++ " to " ++
      phaseName tgt ++ ". Valid transitions: " ++ joinComma (allowed.map phaseName))

/-- Applying a sequence of `transition` calls, stopping at the first failure. -/
def runTransitions : PhaseState → List Phase → Except String PhaseState
  | state, [] => .ok state
  | state, t :: ts =>
    match DebugPhase.transition state t with
    | .ok next => runTransitions next ts
    | .error e => .error e

/-- Number of `CONFIRMING → PLANNING` edges in a transition sequence starting
at the given phase. -/
def countCycleEdges : Phase → List Phase → Nat
  | _, [] => 0
  | p, t :: ts => (if p = .CONFIRMING ∧ t = .PLANNING then 1 else 0) + countCycleEdges t ts

theorem validTransitions_eq (p : Phase) : validTransitions p = [phaseSuccessor p] := by
  cases p <;> rfl

theorem transition_ok_iff (state : PhaseState) (t : Phase) :
    (∃ s', DebugPhase.transition state t = .ok s') ↔ t = phaseSuccessor state.currentPhase := by
  unfold DebugPhase.transition
  rw [validTransitions_eq]
  by_cases h : t ∈ [phaseSuccessor state.currentPhase]
  · simp only [h, if_true]
    simp only [List.mem_singleton] at h
    exact ⟨fun _ => h, fun _ => ⟨_, rfl⟩⟩
  · simp only [h, if_false]
    simp only [List.mem_singleton] at h
    constructor
    · rintro ⟨s', hs⟩
      cases hs
    · intro ht
      exact absurd ht h

theorem transition_ok_fields (state : PhaseState) (t : Phase) (s' : PhaseState)
    (h : DebugPhase.transition state t = .ok s') :
    s'.currentPhase = t ∧
    s'.currentStep =
      state.currentStep + (if state.currentPhase = .CONFIRMING ∧ t = .PLANNING then 1 else 0) := by
  unfold DebugPhase.transition at h
  by_cases hm : t ∈ validTransitions state.currentPhase
  · simp only [hm, if_true] at h
    by_cases hc : state.currentPhase = .CONFIRMING ∧ t = .PLANNING
    · simp only [hc, if_true] at h ⊢
      cases h
      exact ⟨rfl, rfl⟩
    · simp only [hc, if_false] at h ⊢
      cases h
      exact ⟨rfl, rfl⟩
  · simp only [hm, if_false] at h
    cases h

theorem runTransitions_step (ts : List Phase) :
    ∀ (state s' : PhaseState), runTransitions state ts = .ok s' →
      s'.currentStep = state.currentStep + countCycleEdges state.currentPhase ts := by
  induction ts with
  | nil =>
    intro state s' h
    cases h
    simp [countCycleEdges]
  | cons t rest ih =>
    intro state s' h
    unfold runTransitions at h
    cases htr : DebugPhase.transition state t with
    | ok next =>
      rw [htr] at h
      obtain ⟨hphase, hstep⟩ := transition_ok_fields state t next htr
      have := ih next s' h
      rw [this, hstep, hphase]
      simp only [countCycleEdges]
      omega
    | error e =>
      rw [htr] at h
      cases h

/-- **C2.** Each `transition` succeeds exactly when the target is the single
ring successor of the current phase; each successful transition moves to the
target and adds one to `currentStep` exactly on the `CONFIRMING → PLANNING`
edge; and any successful transition sequence from a fresh state (PLANNING,
step 0) ends with `currentStep` equal to the number of `CONFIRMING → PLANNING`
edges completed. -/
theorem phase_machine_step_count :
    (∀ (state : PhaseState) (t : Phase),
      (∃ s', DebugPhase.transition state t = .ok s') ↔ t = phaseSuccessor state.currentPhase) ∧
    (∀ (state : PhaseState) (t : Phase) (s' : PhaseState),
      DebugPhase.transition state t = .ok s' →
      s'.currentPhase = t ∧
      s'.currentStep = state.currentStep +
        (if state.currentPhase = .CONFIRMING ∧ t = .PLANNING then 1 else 0)) ∧
    (∀ (sid : String) (ts : List Phase) (s' : PhaseState),
      runTransitions (DebugPhase.create sid) ts = .ok s' →
      s'.currentStep = countCycleEdges .PLANNING ts) :=
  ⟨transition_ok_iff, transition_ok_fields,
   fun sid ts s' h => by simpa [DebugPhase.create] using runTransitions_step ts (DebugPhase.create sid) s' h⟩

/-- Witness for `phase_machine_step_count`: a full six-transition cycle from a
fresh state ends at step 1, the number of `CONFIRMING → PLANNING` edges. -/
theorem phase_machine_step_count_witness :
    (⟨"w", .PLANNING, 1, none, [], false⟩ : PhaseState).currentStep =
      countCycleEdges .PLANNING
        [.CODING, .BREAKPOINTING, .DEBUGGING, .EXPLAINING, .CONFIRMING, .PLANNING] :=
  phase_machine_step_count.2.2 "w"
    [.CODING, .BREAKPOINTING, .DEBUGGING, .EXPLAINING, .CONFIRMING, .PLANNING] _ rfl

/-! ## Adapter type auto-detection (adapter/registry.ts `detectType`) -/

/-- JavaScript `String.prototype.endsWith`, modelled on the character sequence. -/
def strEndsWith (s suf : String) : Bool :=
  decide (s.toList.drop (s.toList.length - suf.toList.length) = suf.toList)

def cannotDetectMsg (program : String) : String :=
  "Cannot auto-detect debug type for \"" ++ program ++
    "\". Specify type explicitly (\"node\" or \"python\")."

def isNodeExt (program : String) : Bool :=
  strEndsWith program ".js" || strEndsWith program ".ts" || strEndsWith program ".mjs" ||
    strEndsWith program ".cjs" || strEndsWith program ".tsx" || strEndsWith program ".jsx"

/-- Function `detectType`: a throw is modelled by `Except.error`. -/
def detectType (program : String) : Except String String :=
  if strEndsWith program ".py" then .ok "python"
  else if isNodeExt program then .ok "node"
  else .error (cannotDetectMsg program)

theorem strEndsWith_toList {s suf : String} (h : strEndsWith s suf = true) :
    ∃ t, s.toList = t ++ suf.toList := by
  unfold strEndsWith at h
  rw [decide_eq_true_eq] at h
  refine ⟨s.toList.take (s.toList.length - suf.toList.length), ?_⟩
  conv_lhs => rw [← List.take_append_drop (s.toList.length - suf.toList.length) s.toList]
  rw [h]

theorem strEndsWith_getLast {s suf : String} {c : Char} (h : strEndsWith s suf = true)
    (hc : suf.toList.getLast? = some c) : s.toList.getLast? = some c := by
  obtain ⟨t, ht⟩ := strEndsWith_toList h
  have hne : suf.toList ≠ [] := by
    intro hnil
    rw [hnil] at hc
    cases hc
  rw [ht, List.getLast?_append_of_ne_nil t hne, hc]

theorem node_not_py {p : String} (h : isNodeExt p = true) : strEndsWith p ".py" = false := by
  by_contra hpy
  rw [Bool.not_eq_false] at hpy
  have hy : p.toList.getLast? = some 'y' := strEndsWith_getLast hpy rfl
  unfold isNodeExt at h
  simp only [Bool.or_eq_true] at h
  rcases h with ((((h1 | h2) | h3) | h4) | h5) | h6
  · have := strEndsWith_getLast h1 (show ".js".toList.getLast? = some 's' from rfl)
    rw [hy] at this
    cases this
  · have := strEndsWith_getLast h2 (show ".ts".toList.getLast? = some 's' from rfl)
    rw [hy] at this
    cases this
  · have := strEndsWith_getLast h3 (show ".mjs".toList.getLast? = some 's' from rfl)
    rw [hy] at this
    cases this
  · have := strEndsWith_getLast h4 (show ".cjs".toList.getLast? = some 's' from rfl)
    rw [hy] at this
    cases this
  · have := strEndsWith_getLast h5 (show ".tsx".toList.getLast? = some 'x' from rfl)
    rw [hy] at this
    cases this
  · have := strEndsWith_getLast h6 (show ".jsx".toList.getLast? = some 'x' from rfl)
    rw [hy] at this
    cases this

/-- **C9.** Auto-detection returns the python adapter exactly for `.py` paths,
the node adapter exactly for `.js`/`.ts`/`.mjs`/`.cjs`/`.tsx`/`.jsx` paths, and
otherwise fails with the "Cannot auto-detect" error; in particular `.txt`,
`.rs` and empty paths are rejected. -/
theorem detectType_extension_rules :
    (∀ p, detectType p = .ok "python" ↔ strEndsWith p ".py" = true) ∧
    (∀ p, detectType p = .ok "node" ↔ isNodeExt p = true) ∧
    (∀ p, strEndsWith p ".py" = false → isNodeExt p = false →
      detectType p = .error (cannotDetectMsg p)) ∧
    detectType "a.txt" = .error (cannotDetectMsg "a.txt") ∧
    detectType "a.rs" = .error (cannotDetectMsg "a.rs") ∧
    detectType "" = .error (cannotDetectMsg "") := by
  refine ⟨?_, ?_, ?_, rfl, rfl, rfl⟩
  · intro p
    unfold detectType
    constructor
    · intro hok
      by_cases h : strEndsWith p ".py" = true
      · exact h
      · rw [if_neg h] at hok
        by_cases h2 : isNodeExt p = true
        · rw [if_pos h2] at hok
          simp only [Except.ok.injEq] at hok
          exact absurd hok (by decide)
        · rw [if_neg h2] at hok
          cases hok
    · intro h
      rw [if_pos h]
  · intro p
    unfold detectType
    constructor
    · intro hok
      by_cases h : strEndsWith p ".py" = true
      · rw [if_pos h] at hok
        simp only [Except.ok.injEq] at hok
        exact absurd hok (by decide)
      · rw [if_neg h] at hok
        by_cases h2 : isNodeExt p = true
        · exact h2
        · rw [if_neg h2] at hok
          cases hok
    · intro h2
      rw [if_neg (show ¬ strEndsWith p ".py" = true by simp [node_not_py h2]), if_pos h2]
  · intro p h1 h2
    unfold detectType
    rw [if_neg (by simp [h1]), if_neg (by simp [h2])]

theorem detectType_extension_rules_witness :
    detectType "w.rs" = .error (cannotDetectMsg "w.rs") :=
  detectType_extension_rules.2.2.1 "w.rs" (by decide) (by decide)

/-! ## Session state and breakpoint registry (session/state.ts) -/

structure SourceBreakpoint where
  line : Nat
  column : Option Nat
  condition : Option String
  hitCondition : Option String
  logMessage : Option String
  deriving DecidableEq, Repr

structure BreakpointInfo where
  line : Nat
  column : Option Nat
  condition : Option String
  hitCondition : Option String
  logMessage : Option String
  verified : Bool
  id : Option Nat
  deriving DecidableEq, Repr

structure BreakpointResult where
  id : Option Nat
  verified : Bool
  line : Option Nat
  message : Option String
  deriving DecidableEq, Repr

/-- A TypeScript `Map<string, BreakpointInfo[]>` as an association list with
unique keys maintained by the operations below. -/
abbrev BreakpointRegistry := List (String × List BreakpointInfo)

def assocGet (m : BreakpointRegistry) (k : String) : Option (List BreakpointInfo) :=
  (m.find? (fun p => p.1 == k)).map (·.2)

def assocSet (m : BreakpointRegistry) (k : String) (v : List BreakpointInfo) :
    BreakpointRegistry :=
  match m with
  | [] => [(k, v)]
  | p :: rest => if p.1 == k then (k, v) :: rest else p :: assocSet rest k v

def assocErase (m : BreakpointRegistry) (k : String) : BreakpointRegistry :=
  m.filter (fun p => !(p.1 == k))

structure SessionState where
  id : String
  breakpoints : BreakpointRegistry
  stoppedThreadId : Option Nat
  stoppedReason : Option String
  deriving DecidableEq, Repr

/-- Function `createSessionState`. -/
def createSessionState (id : String) : SessionState := ⟨id, [], none, none⟩

/-- Function `getBreakpointsForFile`. -/
def getBreakpointsForFile (s : SessionState) (file : String) : List BreakpointInfo :=
  (assocGet s.breakpoints file).getD []

/-- Function `setBreakpointsForFile`: an empty list deletes the file's entry. -/
def setBreakpointsForFile (s : SessionState) (file : String) (bps : List BreakpointInfo) :
    SessionState :=
  if bps.length = 0 then { s with breakpoints := assocErase s.breakpoints file }
  else { s with breakpoints := assocSet s.breakpoints file bps }

/-- Function `getAllBreakpoints`. -/
def getAllBreakpoints (s : SessionState) : BreakpointRegistry := s.breakpoints

/-- Function `toSourceBreakpoints`. -/
def toSourceBreakpoints (infos : List BreakpointInfo) : List SourceBreakpoint :=
  infos.map (fun bp => ⟨bp.line, bp.column, bp.condition, bp.hitCondition, bp.logMessage⟩)

/-! ## Breakpoint tools (tools/breakpoints.ts)

The adapter's reply to `setBreakpoints` is an explicit input (`results`). -/

/-- The entry `\x7b ...bp, verified: false \x7d` for a requested breakpoint. -/
def requestedInfo (bp : SourceBreakpoint) : BreakpointInfo :=
  ⟨bp.line, bp.column, bp.condition, bp.hitCondition, bp.logMessage, false, none⟩

/-- Expression `merged.findIndex((e) => e.line === bp.line)`: index of the first entry
with the given line (`none` for -1). -/
def findLineIdx : List BreakpointInfo → Nat → Option Nat
  | [], _ => none
  | e :: rest, n => if e.line == n then some 0 else (findLineIdx rest n).map (· + 1)

/-- One iteration of the merge loop in the `set_breakpoints` tool. -/
def mergeStep (merged : List BreakpointInfo) (bp : SourceBreakpoint) : List BreakpointInfo :=
  match findLineIdx merged bp.line with
  | some idx => merged.set idx (requestedInfo bp)
  | none => merged ++ [requestedInfo bp]

/-- The merge loop over the caller's breakpoint list. -/
def mergeBreakpoints : List BreakpointInfo → List SourceBreakpoint → List BreakpointInfo
  | merged, [] => merged
  | merged, bp :: rest => mergeBreakpoints (mergeStep merged bp) rest

/-- The update `\x7b ...bp, verified: results[i]?.verified ?? false, id: results[i]?.id,
line: results[i]?.line ?? bp.line \x7d`. -/
def updatedInfo (results : List BreakpointResult) (i : Nat) (bp : BreakpointInfo) :
    BreakpointInfo :=
  { bp with
    verified := ((results[i]?).map (·.verified)).getD false
    id := (results[i]?).bind (·.id)
    line := ((results[i]?).bind (·.line)).getD bp.line }

def applyResultsFrom : Nat → List BreakpointInfo → List BreakpointResult → List BreakpointInfo
  | _, [], _ => []
  | i, bp :: rest, results => updatedInfo results i bp :: applyResultsFrom (i + 1) rest results

def applyResults (merged : List BreakpointInfo) (results : List BreakpointResult) :
    List BreakpointInfo :=
  applyResultsFrom 0 merged results

structure SetBreakpointsOutcome where
  state : SessionState
  sent : List SourceBreakpoint
  reported : List (Nat × Bool × Option String)
  deriving DecidableEq, Repr

/-- The `set_breakpoints` tool.  `reported` is the (line, verified, condition)
triple list rendered back to the caller. -/
def set_breakpoints (session : SessionState) (file : String) (bps : List SourceBreakpoint)
    (results : List BreakpointResult) : SetBreakpointsOutcome :=
  let existing := getBreakpointsForFile session file
  let merged := mergeBreakpoints existing bps
  let updated := applyResults merged results
  ⟨setBreakpointsForFile session file updated,
   toSourceBreakpoints merged,
   updated.map (fun bp => (bp.line, bp.verified, bp.condition))⟩

/-- The update `\x7b ...bp, verified: results[i]?.verified ?? false, id: results[i]?.id \x7d`
(the remove path does not overwrite the stored line). -/
def removeUpdatedInfo (results : List BreakpointResult) (i : Nat) (bp : BreakpointInfo) :
    BreakpointInfo :=
  { bp with
    verified := ((results[i]?).map (·.verified)).getD false
    id := (results[i]?).bind (·.id) }

def removeApplyFrom : Nat → List BreakpointInfo → List BreakpointResult → List BreakpointInfo
  | _, [], _ => []
  | i, bp :: rest, results => removeUpdatedInfo results i bp :: removeApplyFrom (i + 1) rest results

structure RemoveBreakpointsOutcome where
  state : SessionState
  sent : List SourceBreakpoint
  remainingCount : Nat
  deriving DecidableEq, Repr

/-- The `remove_breakpoints` tool. -/
def remove_breakpoints (session : SessionState) (file : String) (lines : Option (List Nat))
    (results : List BreakpointResult) : RemoveBreakpointsOutcome :=
  let existing := getBreakpointsForFile session file
  let remaining :=
    match lines with
    | some ls => existing.filter (fun bp => !(ls.contains bp.line))
    | none => []
  if remaining.length > 0 then
    ⟨setBreakpointsForFile session file (removeApplyFrom 0 remaining results),
     toSourceBreakpoints remaining, remaining.length⟩
  else
    ⟨setBreakpointsForFile session file [], [], 0⟩

/-- The `list_breakpoints` tool returns the registry contents. -/
def list_breakpoints (session : SessionState) : BreakpointRegistry :=
  getAllBreakpoints session

theorem assocGet_assocErase (m : BreakpointRegistry) (k : String) :
    assocGet (assocErase m k) k = none := by
  induction m with
  | nil => rfl
  | cons p rest ih =>
    unfold assocErase at ih ⊢
    rw [List.filter_cons]
    by_cases h : (p.1 == k) = true
    · simp only [h, Bool.not_true, Bool.false_eq_true, if_false]
      exact ih
    · rw [Bool.not_eq_true] at h
      simp only [h, Bool.not_false, if_true]
      unfold assocGet
      rw [List.find?_cons_of_neg _ (by simp [h])]
      exact ih

/-- **C8.** `remove_breakpoints(file)` with `lines` omitted sends the empty
list to the adapter and deletes the file from the registry, so a subsequent
`list_breakpoints` has no entry for that file. -/
theorem remove_breakpoints_omitted_lines (session : SessionState) (file : String)
    (results : List BreakpointResult) :
    (remove_breakpoints session file none results).sent = [] ∧
    assocGet (remove_breakpoints session file none results).state.breakpoints file = none ∧
    ∀ entry ∈ list_breakpoints (remove_breakpoints session file none results).state,
      entry.1 ≠ file := by
  unfold remove_breakpoints
  simp only [List.length_nil, gt_iff_lt, Nat.lt_irrefl, if_false]
  refine ⟨by simp, ?_, ?_⟩
  · unfold setBreakpointsForFile
    simp only [List.length_nil, if_pos rfl]
    exact assocGet_assocErase session.breakpoints file
  · intro entry hmem
    unfold list_breakpoints getAllBreakpoints setBreakpointsForFile at hmem
    simp only [List.length_nil, if_pos rfl] at hmem
    unfold assocErase at hmem
    have := List.of_mem_filter hmem
    simp only [Bool.not_eq_true'] at this
    intro hk
    rw [hk] at this
    simp at this

/-- Witness for `remove_breakpoints_omitted_lines` at a concrete session that
has a breakpoint stored for the removed file. -/
theorem remove_breakpoints_omitted_lines_witness :
    assocGet
      (remove_breakpoints
        ⟨"session-1", [("/tmp/a.js", [⟨2, none, none, none, none, true, some 0⟩])], none, none⟩
        "/tmp/a.js" none []).state.breakpoints "/tmp/a.js" = none :=
  (remove_breakpoints_omitted_lines
    ⟨"session-1", [("/tmp/a.js", [⟨2, none, none, none, none, true, some 0⟩])], none, none⟩
    "/tmp/a.js" []).2.1

/-! ### Line-level lemmas about the merge loop -/

def linesOf (l : List BreakpointInfo) : List Nat := l.map (·.line)

/-- Function `findLineIdx` on the projected list of lines. -/
def findNatIdx : List Nat → Nat → Option Nat
  | [], _ => none
  | m :: rest, n => if m == n then some 0 else (findNatIdx rest n).map (· + 1)

theorem findLineIdx_eq_findNatIdx (s : List BreakpointInfo) (n : Nat) :
    findLineIdx s n = findNatIdx (linesOf s) n := by
  induction s with
  | nil => rfl
  | cons e rest ih =>
    unfold findLineIdx linesOf
    rw [List.map_cons]
    unfold findNatIdx
    rw [ih]
    rfl

theorem findNatIdx_eq_none_iff (l : List Nat) (n : Nat) : findNatIdx l n = none ↔ n ∉ l := by
  induction l with
  | nil => simp [findNatIdx]
  | cons m rest ih =>
    unfold findNatIdx
    by_cases h : (m == n) = true
    · rw [if_pos h]
      have hm : m = n := eq_of_beq h
      constructor
      · intro hc
        cases hc
      · intro hnot
        exact absurd (by rw [← hm]; exact List.mem_cons_self m rest) hnot
    · rw [if_neg h]
      have hm : m ≠ n := by
        intro he
        rw [he] at h
        simp at h
      rw [Option.map_eq_none', ih]
      constructor
      · intro hnr hmem
        rcases List.mem_cons.mp hmem with he | hr
        · exact hm he.symm
        · exact hnr hr
      · intro hnot hr
        exact hnot (List.mem_cons_of_mem m hr)

theorem findNatIdx_some_getElem (l : List Nat) (n : Nat) :
    ∀ j, findNatIdx l n = some j → l[j]? = some n := by
  induction l with
  | nil =>
    intro j h
    cases h
  | cons m rest ih =>
    intro j h
    unfold findNatIdx at h
    by_cases hm : (m == n) = true
    · rw [if_pos hm] at h
      cases h
      simp [eq_of_beq hm]
    · rw [if_neg hm] at h
      rcases Option.map_eq_some'.mp h with ⟨j', hj', rfl⟩
      simpa using ih j' hj'

theorem findNatIdx_append_some (l ext : List Nat) (n : Nat) :
    ∀ j, findNatIdx l n = some j → findNatIdx (l ++ ext) n = some j := by
  induction l with
  | nil =>
    intro j h
    cases h
  | cons m rest ih =>
    intro j h
    rw [List.cons_append]
    simp only [findNatIdx] at h ⊢
    by_cases hm : (m == n) = true
    · rw [if_pos hm] at h ⊢
      exact h
    · rw [if_neg hm] at h ⊢
      rcases Option.map_eq_some'.mp h with ⟨j', hj', rfl⟩
      rw [ih j' hj']
      rfl

theorem findNatIdx_append_none (l ext : List Nat) (n : Nat) (h : findNatIdx l n = none) :
    findNatIdx (l ++ ext) n = (findNatIdx ext n).map (· + l.length) := by
  induction l with
  | nil =>
    cases hfe : findNatIdx ext n <;> simp [hfe]
  | cons m rest ih =>
    rw [List.cons_append]
    simp only [findNatIdx] at h ⊢
    by_cases hm : (m == n) = true
    · rw [if_pos hm] at h
      cases h
    · rw [if_neg hm] at h ⊢
      have h' : findNatIdx rest n = none := Option.map_eq_none'.mp h
      rw [ih h']
      cases hfe : findNatIdx ext n
      · simp [hfe]
      · simp only [hfe, Option.map_some', List.length_cons]
        congr 1

theorem mergeStep_found (s : List BreakpointInfo) (bp : SourceBreakpoint) (idx : Nat)
    (h : findLineIdx s bp.line = some idx) :
    mergeStep s bp = s.set idx (requestedInfo bp) := by
  unfold mergeStep
  rw [h]

theorem mergeStep_not_found (s : List BreakpointInfo) (bp : SourceBreakpoint)
    (h : findLineIdx s bp.line = none) :
    mergeStep s bp = s ++ [requestedInfo bp] := by
  unfold mergeStep
  rw [h]

theorem linesOf_set (s : List BreakpointInfo) (i : Nat) (v : BreakpointInfo) :
    linesOf (s.set i v) = (linesOf s).set i v.line :=
  List.map_set

theorem set_same_value (l : List Nat) : ∀ (i n : Nat), l[i]? = some n → l.set i n = l := by
  induction l with
  | nil =>
    intro i n h
    simp at h
  | cons m rest ih =>
    intro i n h
    cases i with
    | zero =>
      simp only [List.getElem?_cons_zero, Option.some.injEq] at h
      rw [← h]
      rfl
    | succ i' =>
      simp only [List.getElem?_cons_succ] at h
      simp [List.set, ih i' n h]

theorem linesOf_mergeStep_found (s : List BreakpointInfo) (bp : SourceBreakpoint) (idx : Nat)
    (h : findLineIdx s bp.line = some idx) :
    linesOf (mergeStep s bp) = linesOf s := by
  rw [mergeStep_found s bp idx h, linesOf_set]
  exact set_same_value (linesOf s) idx bp.line
    (findNatIdx_some_getElem (linesOf s) bp.line idx
      (by rw [← findLineIdx_eq_findNatIdx]; exact h))

theorem linesOf_mergeStep_not_found (s : List BreakpointInfo) (bp : SourceBreakpoint)
    (h : findLineIdx s bp.line = none) :
    linesOf (mergeStep s bp) = linesOf s ++ [bp.line] := by
  rw [mergeStep_not_found s bp h]
  simp [linesOf, requestedInfo]

theorem mergeBreakpoints_cons (s : List BreakpointInfo) (bp : SourceBreakpoint)
    (rest : List SourceBreakpoint) :
    mergeBreakpoints s (bp :: rest) = mergeBreakpoints (mergeStep s bp) rest := rfl

theorem mergeBreakpoints_lines_extend (L : List SourceBreakpoint) :
    ∀ s, ∃ ext, linesOf (mergeBreakpoints s L) = linesOf s ++ ext := by
  induction L with
  | nil =>
    intro s
    exact ⟨[], by simp [mergeBreakpoints]⟩
  | cons bp rest ih =>
    intro s
    show ∃ ext, linesOf (mergeBreakpoints (mergeStep s bp) rest) = linesOf s ++ ext
    rcases ih (mergeStep s bp) with ⟨ext, hext⟩
    cases hf : findLineIdx s bp.line with
    | some idx =>
      exact ⟨ext, by rw [hext, linesOf_mergeStep_found s bp idx hf]⟩
    | none =>
      refine ⟨bp.line :: ext, ?_⟩
      rw [hext, linesOf_mergeStep_not_found s bp hf]
      simp

theorem mem_linesOf_mergeBreakpoints (L : List SourceBreakpoint) :
    ∀ s n, n ∈ linesOf (mergeBreakpoints s L) ↔ n ∈ linesOf s ∨ n ∈ L.map (·.line) := by
  induction L with
  | nil =>
    intro s n
    simp [mergeBreakpoints]
  | cons bp rest ih =>
    intro s n
    show n ∈ linesOf (mergeBreakpoints (mergeStep s bp) rest) ↔ _
    rw [ih]
    rw [List.map_cons]
    cases hf : findLineIdx s bp.line with
    | some idx =>
      rw [linesOf_mergeStep_found s bp idx hf]
      have hmem : bp.line ∈ linesOf s := by
        have hg := findNatIdx_some_getElem (linesOf s) bp.line idx
          (by rw [← findLineIdx_eq_findNatIdx]; exact hf)
        exact List.getElem?_mem hg
      constructor
      · rintro (h | h)
        · exact Or.inl h
        · exact Or.inr (List.mem_cons_of_mem _ h)
      · rintro (h | h)
        · exact Or.inl h
        · rcases List.mem_cons.mp h with rfl | h
          · exact Or.inl hmem
          · exact Or.inr h
    | none =>
      rw [linesOf_mergeStep_not_found s bp hf]
      simp only [List.mem_append, List.mem_singleton, List.mem_cons]
      tauto

theorem nodup_linesOf_mergeBreakpoints (L : List SourceBreakpoint) :
    ∀ s, (linesOf s).Nodup → (linesOf (mergeBreakpoints s L)).Nodup := by
  induction L with
  | nil =>
    intro s h
    exact h
  | cons bp rest ih =>
    intro s h
    show (linesOf (mergeBreakpoints (mergeStep s bp) rest)).Nodup
    apply ih
    cases hf : findLineIdx s bp.line with
    | some idx =>
      rwa [linesOf_mergeStep_found s bp idx hf]
    | none =>
      rw [linesOf_mergeStep_not_found s bp hf]
      have hnot : bp.line ∉ linesOf s := by
        apply (findNatIdx_eq_none_iff _ _).mp
        rw [← findLineIdx_eq_findNatIdx]
        exact hf
      rw [List.nodup_append]
      refine ⟨h, List.nodup_singleton _, ?_⟩
      intro x hx hxbp
      rw [List.mem_singleton] at hxbp
      rw [hxbp] at hx
      exact hnot hx

theorem mergeBreakpoints_lockstep (L : List SourceBreakpoint) :
    ∀ s1 s2, linesOf s1 = linesOf s2 →
      linesOf (mergeBreakpoints s1 L) = linesOf (mergeBreakpoints s2 L) ∧
      ∀ i : Nat, ((mergeBreakpoints s1 L)[i]? = s1[i]? ∧ (mergeBreakpoints s2 L)[i]? = s2[i]?) ∨
        (mergeBreakpoints s1 L)[i]? = (mergeBreakpoints s2 L)[i]? := by
  induction L with
  | nil =>
    intro s1 s2 h
    exact ⟨h, fun i => Or.inl ⟨rfl, rfl⟩⟩
  | cons bp rest ih =>
    intro s1 s2 h
    have hlen : s1.length = s2.length := by
      have := congrArg List.length h
      simpa [linesOf] using this
    have hidx : findLineIdx s1 bp.line = findLineIdx s2 bp.line := by
      rw [findLineIdx_eq_findNatIdx, findLineIdx_eq_findNatIdx, h]
    rw [mergeBreakpoints_cons s1 bp rest, mergeBreakpoints_cons s2 bp rest]
    cases hf : findLineIdx s1 bp.line with
    | some idx =>
      have hf2 : findLineIdx s2 bp.line = some idx := by rw [← hidx]; exact hf
      rw [mergeStep_found s1 bp idx hf, mergeStep_found s2 bp idx hf2]
      have hlines : linesOf (s1.set idx (requestedInfo bp)) =
          linesOf (s2.set idx (requestedInfo bp)) := by
        rw [linesOf_set, linesOf_set, h]
      rcases ih _ _ hlines with ⟨hl, hp⟩
      refine ⟨hl, fun i => ?_⟩
      rcases hp i with ⟨h1, h2⟩ | heq
      · by_cases hij : i = idx
        · subst hij
          right
          rw [h1, h2]
          by_cases hlt : i < s1.length
          · rw [List.getElem?_set_eq hlt, List.getElem?_set_eq (by omega)]
          · rw [List.getElem?_eq_none (by simp; omega), List.getElem?_eq_none (by simp; omega)]
        · left
          constructor
          · rw [h1, List.getElem?_set_ne (by omega)]
          · rw [h2, List.getElem?_set_ne (by omega)]
      · right
        exact heq
    | none =>
      have hf2 : findLineIdx s2 bp.line = none := by rw [← hidx]; exact hf
      rw [mergeStep_not_found s1 bp hf, mergeStep_not_found s2 bp hf2]
      have hlines : linesOf (s1 ++ [requestedInfo bp]) = linesOf (s2 ++ [requestedInfo bp]) := by
        simp only [linesOf, List.map_append]
        rw [show List.map (·.line) s1 = linesOf s1 from rfl,
          show List.map (·.line) s2 = linesOf s2 from rfl, h]
      rcases ih _ _ hlines with ⟨hl, hp⟩
      refine ⟨hl, fun i => ?_⟩
      rcases hp i with ⟨h1, h2⟩ | heq
      · by_cases hlt : i < s1.length
        · left
          constructor
          · rw [h1, List.getElem?_append_left hlt]
          · rw [h2, List.getElem?_append_left (by omega)]
        · right
          rw [h1, h2]
          rw [List.getElem?_append_right (by omega), List.getElem?_append_right (by omega), hlen]
      · right
        exact heq

/-- The last request in `L` carrying the given line, if any. -/
def lastReqWith : List SourceBreakpoint → Nat → Option SourceBreakpoint
  | [], _ => none
  | bp :: rest, l =>
    match lastReqWith rest l with
    | some r => some r
    | none => if bp.line == l then some bp else none

/-- The value a first-occurrence position holds after the merge loop. -/
def finalEntry (L : List SourceBreakpoint) (e : BreakpointInfo) : BreakpointInfo :=
  match lastReqWith L e.line with
  | some bp => requestedInfo bp
  | none => e

theorem lastReqWith_cons_ne (bp : SourceBreakpoint) (rest : List SourceBreakpoint) (l : Nat)
    (h : bp.line ≠ l) : lastReqWith (bp :: rest) l = lastReqWith rest l := by
  simp only [lastReqWith]
  cases lastReqWith rest l with
  | some r => rfl
  | none =>
    simp only []
    rw [if_neg (by simp [h])]

theorem finalEntry_cons_ne (bp : SourceBreakpoint) (rest : List SourceBreakpoint)
    (e : BreakpointInfo) (h : bp.line ≠ e.line) :
    finalEntry (bp :: rest) e = finalEntry rest e := by
  unfold finalEntry
  rw [lastReqWith_cons_ne bp rest e.line h]

/-- On a position that is the first occurrence of its line, the merge loop
leaves the entry of the last request with that line (or the original entry). -/
theorem mergeBreakpoints_getElem_firstOcc (L : List SourceBreakpoint) :
    ∀ (s : List BreakpointInfo) (i : Nat) (e : BreakpointInfo),
      s[i]? = some e → findNatIdx (linesOf s) e.line = some i →
      (mergeBreakpoints s L)[i]? = some (finalEntry L e) := by
  induction L with
  | nil =>
    intro s i e hget hf
    rw [show mergeBreakpoints s [] = s from rfl, hget]
    rfl
  | cons bp rest ih =>
    intro s i e hget hf
    rw [mergeBreakpoints_cons s bp rest]
    by_cases hline : bp.line = e.line
    · have hfl : findLineIdx s bp.line = some i := by
        rw [findLineIdx_eq_findNatIdx, hline]
        exact hf
      rw [mergeStep_found s bp i hfl]
      have hlt : i < s.length := (List.getElem?_eq_some.mp hget).1
      have hget' : (s.set i (requestedInfo bp))[i]? = some (requestedInfo bp) :=
        List.getElem?_set_eq hlt
      have hlineseq : linesOf (s.set i (requestedInfo bp)) = linesOf s := by
        rw [linesOf_set]
        exact set_same_value (linesOf s) i bp.line
          (by rw [hline]; exact findNatIdx_some_getElem (linesOf s) e.line i hf)
      have hf' : findNatIdx (linesOf (s.set i (requestedInfo bp))) (requestedInfo bp).line =
          some i := by
        rw [hlineseq]
        show findNatIdx (linesOf s) bp.line = some i
        rw [hline]
        exact hf
      rw [ih (s.set i (requestedInfo bp)) i (requestedInfo bp) hget' hf']
      congr 1
      show finalEntry rest (requestedInfo bp) = finalEntry (bp :: rest) e
      unfold finalEntry
      have hrq : (requestedInfo bp).line = e.line := hline
      rw [hrq]
      simp only [lastReqWith]
      cases hlr : lastReqWith rest e.line with
      | some r => rfl
      | none =>
        simp only []
        rw [if_pos (by simp [hline])]
    · have halign : finalEntry (bp :: rest) e = finalEntry rest e :=
        finalEntry_cons_ne bp rest e hline
      rw [halign]
      cases hfl : findLineIdx s bp.line with
      | some k =>
        have hki : k ≠ i := by
          intro hk
          subst hk
          have h1 := findNatIdx_some_getElem (linesOf s) bp.line k
            (by rw [← findLineIdx_eq_findNatIdx]; exact hfl)
          have h2 : (linesOf s)[k]? = some e.line := by
            unfold linesOf
            rw [List.getElem?_map, hget]
            rfl
          rw [h1] at h2
          exact hline (Option.some.inj h2)
        rw [mergeStep_found s bp k hfl]
        apply ih
        · rw [List.getElem?_set_ne hki]
          exact hget
        · rw [linesOf_set]
          rw [show (requestedInfo bp).line = bp.line from rfl]
          rw [set_same_value (linesOf s) k bp.line
            (findNatIdx_some_getElem (linesOf s) bp.line k
              (by rw [← findLineIdx_eq_findNatIdx]; exact hfl))]
          exact hf
      | none =>
        rw [mergeStep_not_found s bp hfl]
        apply ih
        · rw [List.getElem?_append_left (List.getElem?_eq_some.mp hget).1]
          exact hget
        · rw [show linesOf (s ++ [requestedInfo bp]) = linesOf s ++ [bp.line] by
            simp [linesOf, requestedInfo]]
          exact findNatIdx_append_some (linesOf s) [bp.line] e.line i hf

theorem toSource_linesOf (s : List BreakpointInfo) :
    (toSourceBreakpoints s).map (·.line) = linesOf s := by
  unfold toSourceBreakpoints linesOf
  rw [List.map_map]
  rfl

theorem linesOf_eq_of_src {s1 s2 : List BreakpointInfo}
    (h : toSourceBreakpoints s1 = toSourceBreakpoints s2) : linesOf s1 = linesOf s2 := by
  rw [← toSource_linesOf, ← toSource_linesOf, h]

/-- The merge loop's output source fields depend on the input only through its
source fields. -/
theorem mergeBreakpoints_src_congr (L : List SourceBreakpoint) :
    ∀ s1 s2, toSourceBreakpoints s1 = toSourceBreakpoints s2 →
      toSourceBreakpoints (mergeBreakpoints s1 L) = toSourceBreakpoints (mergeBreakpoints s2 L) := by
  induction L with
  | nil =>
    intro s1 s2 h
    exact h
  | cons bp rest ih =>
    intro s1 s2 h
    rw [mergeBreakpoints_cons s1 bp rest, mergeBreakpoints_cons s2 bp rest]
    apply ih
    have hlines := linesOf_eq_of_src h
    have hidx : findLineIdx s1 bp.line = findLineIdx s2 bp.line := by
      rw [findLineIdx_eq_findNatIdx, findLineIdx_eq_findNatIdx, hlines]
    cases hf : findLineIdx s1 bp.line with
    | some idx =>
      have hf2 : findLineIdx s2 bp.line = some idx := by rw [← hidx]; exact hf
      rw [mergeStep_found s1 bp idx hf, mergeStep_found s2 bp idx hf2]
      unfold toSourceBreakpoints at h ⊢
      rw [List.map_set, List.map_set, h]
    | none =>
      have hf2 : findLineIdx s2 bp.line = none := by rw [← hidx]; exact hf
      rw [mergeStep_not_found s1 bp hf, mergeStep_not_found s2 bp hf2]
      unfold toSourceBreakpoints at h ⊢
      rw [List.map_append, List.map_append, h]

theorem linesOf_length (s : List BreakpointInfo) : (linesOf s).length = s.length := by
  simp [linesOf]

/-- After `mergeStep`, the first occurrence of the request's line holds the
requested entry. -/
theorem mergeStep_firstOcc (s : List BreakpointInfo) (bp : SourceBreakpoint) :
    ∃ j, findNatIdx (linesOf (mergeStep s bp)) bp.line = some j ∧
      (mergeStep s bp)[j]? = some (requestedInfo bp) := by
  cases hf : findLineIdx s bp.line with
  | some idx =>
    refine ⟨idx, ?_, ?_⟩
    · rw [linesOf_mergeStep_found s bp idx hf]
      rw [← findLineIdx_eq_findNatIdx]
      exact hf
    · rw [mergeStep_found s bp idx hf]
      have hg := findNatIdx_some_getElem (linesOf s) bp.line idx
        (by rw [← findLineIdx_eq_findNatIdx]; exact hf)
      have hlt : idx < s.length := by
        have := (List.getElem?_eq_some.mp hg).1
        rwa [linesOf_length] at this
      exact List.getElem?_set_eq hlt
  | none =>
    refine ⟨s.length, ?_, ?_⟩
    · rw [linesOf_mergeStep_not_found s bp hf]
      rw [findNatIdx_append_none (linesOf s) [bp.line] bp.line
        (by rw [← findLineIdx_eq_findNatIdx]; exact hf)]
      rw [show findNatIdx [bp.line] bp.line = some 0 by simp [findNatIdx]]
      rw [Option.map_some']
      rw [linesOf_length]
      congr 1
      omega
    · rw [mergeStep_not_found s bp hf]
      rw [List.getElem?_append_right (Nat.le_refl s.length)]
      simp

/-- **Merge idempotence** on source fields: replaying the same request list on
the merge's own output does not change the stored source fields. -/
theorem mergeBreakpoints_idem_src (L : List SourceBreakpoint) :
    ∀ s, toSourceBreakpoints (mergeBreakpoints (mergeBreakpoints s L) L) =
      toSourceBreakpoints (mergeBreakpoints s L) := by
  induction L with
  | nil =>
    intro s
    rfl
  | cons bp rest ih =>
    intro s
    rw [mergeBreakpoints_cons s bp rest]
    rcases mergeStep_firstOcc s bp with ⟨j, hjfind, hjget⟩
    rcases mergeBreakpoints_lines_extend rest (mergeStep s bp) with ⟨ext, hext⟩
    have hMfind : findNatIdx (linesOf (mergeBreakpoints (mergeStep s bp) rest)) bp.line =
        some j := by
      rw [hext]
      exact findNatIdx_append_some _ ext bp.line j hjfind
    have hMget : (mergeBreakpoints (mergeStep s bp) rest)[j]? =
        some (finalEntry rest (requestedInfo bp)) :=
      mergeBreakpoints_getElem_firstOcc rest (mergeStep s bp) j (requestedInfo bp) hjget
        (by rw [show (requestedInfo bp).line = bp.line from rfl]; exact hjfind)
    have hjlt : j < (mergeBreakpoints (mergeStep s bp) rest).length := by
      have := (List.getElem?_eq_some.mp hMget).1
      exact this
    have hMlinesget : (linesOf (mergeBreakpoints (mergeStep s bp) rest))[j]? = some bp.line :=
      findNatIdx_some_getElem _ bp.line j hMfind
    rw [mergeBreakpoints_cons (mergeBreakpoints (mergeStep s bp) rest) bp rest]
    rw [mergeStep_found (mergeBreakpoints (mergeStep s bp) rest) bp j
      (by rw [findLineIdx_eq_findNatIdx]; exact hMfind)]
    -- notation: M := merge (mergeStep s bp) rest; goal:
    -- src (merge (M.set j rq) rest) = src M
    have hsetlines : linesOf ((mergeBreakpoints (mergeStep s bp) rest).set j
        (requestedInfo bp)) = linesOf (mergeBreakpoints (mergeStep s bp) rest) := by
      rw [linesOf_set]
      rw [show (requestedInfo bp).line = bp.line from rfl]
      exact set_same_value _ j bp.line hMlinesget
    have hsetget : ((mergeBreakpoints (mergeStep s bp) rest).set j
        (requestedInfo bp))[j]? = some (requestedInfo bp) :=
      List.getElem?_set_eq hjlt
    have hAget : (mergeBreakpoints ((mergeBreakpoints (mergeStep s bp) rest).set j
        (requestedInfo bp)) rest)[j]? = some (finalEntry rest (requestedInfo bp)) :=
      mergeBreakpoints_getElem_firstOcc rest _ j (requestedInfo bp) hsetget
        (by rw [hsetlines, show (requestedInfo bp).line = bp.line from rfl]; exact hMfind)
    have hIH : toSourceBreakpoints (mergeBreakpoints (mergeBreakpoints (mergeStep s bp) rest)
        rest) = toSourceBreakpoints (mergeBreakpoints (mergeStep s bp) rest) := ih (mergeStep s bp)
    rcases mergeBreakpoints_lockstep rest
      ((mergeBreakpoints (mergeStep s bp) rest).set j (requestedInfo bp))
      (mergeBreakpoints (mergeStep s bp) rest) hsetlines with ⟨hl, hp⟩
    apply List.ext_getElem?
    intro i
    unfold toSourceBreakpoints
    rw [List.getElem?_map, List.getElem?_map]
    by_cases hij : i = j
    · subst hij
      rw [hAget, hMget]
    · rcases hp i with ⟨h1, h2⟩ | heq
      · rw [h1, List.getElem?_set_ne (fun hc => hij hc.symm)]
      · rw [heq]
        have := congrArg (fun l => l[i]?) hIH
        simp only [] at this
        unfold toSourceBreakpoints at this
        rw [List.getElem?_map, List.getElem?_map] at this
        exact this

/-! ### Adapter result application under line-echoing responses -/

/-- Boolean check that every reported line in `rs` echoes the requested line at
the same position of the sent list. -/
def echoResultsB (reqLineList : List Nat) (rs : List BreakpointResult) : Bool :=
  (List.range rs.length).all (fun i =>
    match rs[i]?, reqLineList[i]? with
    | some r, some n => (r.line == none) || (r.line == some n)
    | some r, none => r.line == none
    | none, _ => true)

theorem echoResultsB_spec {reqLineList : List Nat} {rs : List BreakpointResult}
    (h : echoResultsB reqLineList rs = true) :
    ∀ (i : Nat) (r : BreakpointResult) (n : Nat),
      rs[i]? = some r → r.line = some n → reqLineList[i]? = some n := by
  intro i r n hr hn
  have hi : i < rs.length := (List.getElem?_eq_some.mp hr).1
  have hcheck := List.all_eq_true.mp h i (List.mem_range.mpr hi)
  rw [hr] at hcheck
  cases hq : reqLineList[i]? with
  | some m =>
    rw [hq] at hcheck
    have hcheck' : ((r.line == none) || (r.line == some m)) = true := hcheck
    rw [hn] at hcheck'
    simp only [Bool.or_eq_true] at hcheck'
    rcases hcheck' with hc | hc
    · simp at hc
    · have hnm : some n = some m := eq_of_beq hc
      rw [Option.some.inj hnm]
  | none =>
    rw [hq] at hcheck
    have hcheck' : (r.line == none) = true := hcheck
    rw [hn] at hcheck'
    simp at hcheck'

theorem applyResultsFrom_getElem (m : List BreakpointInfo) :
    ∀ (k i : Nat) (results : List BreakpointResult),
      (applyResultsFrom k m results)[i]? = (m[i]?).map (updatedInfo results (k + i)) := by
  induction m with
  | nil =>
    intro k i results
    simp [applyResultsFrom]
  | cons bp rest ih =>
    intro k i results
    cases i with
    | zero =>
      simp [applyResultsFrom]
    | succ i' =>
      rw [show applyResultsFrom k (bp :: rest) results =
        updatedInfo results k bp :: applyResultsFrom (k + 1) rest results from rfl]
      rw [List.getElem?_cons_succ, List.getElem?_cons_succ]
      rw [ih (k + 1) i' results]
      have : k + 1 + i' = k + (i' + 1) := by omega
      rw [this]

theorem applyResults_getElem (m : List BreakpointInfo) (results : List BreakpointResult)
    (i : Nat) : (applyResults m results)[i]? = (m[i]?).map (updatedInfo results i) := by
  unfold applyResults
  rw [applyResultsFrom_getElem m 0 i results]
  rw [Nat.zero_add]

theorem updatedInfo_line_echo {m : List BreakpointInfo} {results : List BreakpointResult}
    (h : echoResultsB (linesOf m) results = true) (i : Nat) (bp : BreakpointInfo)
    (hm : m[i]? = some bp) : (updatedInfo results i bp).line = bp.line := by
  unfold updatedInfo
  cases hr : results[i]? with
  | none => simp [hr]
  | some r =>
    cases hl : r.line with
    | none => simp [hr, hl]
    | some n =>
      have hecho := echoResultsB_spec h i r n hr hl
      have h2 : (linesOf m)[i]? = some bp.line := by
        unfold linesOf
        rw [List.getElem?_map, hm]
        rfl
      rw [hecho] at h2
      have : (n : Nat) = bp.line := Option.some.inj h2
      simp [hr, hl, this]

theorem applyResults_linesOf {m : List BreakpointInfo} {results : List BreakpointResult}
    (h : echoResultsB (linesOf m) results = true) :
    linesOf (applyResults m results) = linesOf m := by
  apply List.ext_getElem?
  intro i
  unfold linesOf
  rw [List.getElem?_map, List.getElem?_map]
  rw [applyResults_getElem m results i]
  cases hm : m[i]? with
  | none => rfl
  | some bp =>
    rw [Option.map_some', Option.map_some', Option.map_some']
    rw [updatedInfo_line_echo h i bp hm]

theorem applyResults_src {m : List BreakpointInfo} {results : List BreakpointResult}
    (h : echoResultsB (linesOf m) results = true) :
    toSourceBreakpoints (applyResults m results) = toSourceBreakpoints m := by
  apply List.ext_getElem?
  intro i
  unfold toSourceBreakpoints
  rw [List.getElem?_map, List.getElem?_map]
  rw [applyResults_getElem m results i]
  cases hm : m[i]? with
  | none => rfl
  | some bp =>
    rw [Option.map_some', Option.map_some', Option.map_some']
    congr 1
    have hline := updatedInfo_line_echo h i bp hm
    unfold updatedInfo at hline ⊢
    rw [hline]

theorem assocGet_assocSet (m : BreakpointRegistry) (k : String) (v : List BreakpointInfo) :
    assocGet (assocSet m k v) k = some v := by
  induction m with
  | nil =>
    unfold assocSet assocGet
    rw [List.find?_cons_of_pos _ (by simp)]
    rfl
  | cons p rest ih =>
    unfold assocSet
    by_cases h : (p.1 == k) = true
    · rw [if_pos h]
      unfold assocGet
      rw [List.find?_cons_of_pos _ (by simp)]
      rfl
    · rw [if_neg h]
      unfold assocGet at ih ⊢
      rw [List.find?_cons_of_neg _ (by simp_all)]
      exact ih

/-- What `list_breakpoints` shows for a file right after `setBreakpointsForFile`. -/
theorem getBreakpointsForFile_set (session : SessionState) (file : String)
    (u : List BreakpointInfo) :
    getBreakpointsForFile (setBreakpointsForFile session file u) file = u := by
  unfold getBreakpointsForFile setBreakpointsForFile
  by_cases h : u.length = 0
  · rw [if_pos h]
    show (assocGet (assocErase session.breakpoints file) file).getD [] = u
    rw [assocGet_assocErase]
    rw [List.length_eq_zero] at h
    rw [h]
    rfl
  · rw [if_neg h]
    show (assocGet (assocSet session.breakpoints file u) file).getD [] = u
    rw [assocGet_assocSet]
    rfl

/-- **C3 (amended).** As stated the claim fails (see the counterexample): the
adapter may report a corrected line, which can collide with another stored
line.  Amended: provided the stored list for the file has no duplicate lines
and the adapter reports each breakpoint at its requested line, after
`set_breakpoints(file, L)` the listed entries for `file` contain exactly one
entry per line of `L` and no duplicate lines. -/
theorem set_breakpoints_one_entry_per_line (session : SessionState) (file : String)
    (L : List SourceBreakpoint) (results : List BreakpointResult)
    (hnodup : (linesOf (getBreakpointsForFile session file)).Nodup)
    (hecho : echoResultsB (linesOf (mergeBreakpoints (getBreakpointsForFile session file) L))
      results = true) :
    (∀ bp ∈ L, (linesOf (getBreakpointsForFile
        (set_breakpoints session file L results).state file)).count bp.line = 1) ∧
    (linesOf (getBreakpointsForFile
        (set_breakpoints session file L results).state file)).Nodup := by
  have hstate : (set_breakpoints session file L results).state =
      setBreakpointsForFile session file
        (applyResults (mergeBreakpoints (getBreakpointsForFile session file) L) results) := rfl
  rw [hstate, getBreakpointsForFile_set]
  rw [applyResults_linesOf hecho]
  have hnodup' := nodup_linesOf_mergeBreakpoints L (getBreakpointsForFile session file) hnodup
  refine ⟨?_, hnodup'⟩
  intro bp hbp
  apply List.count_eq_one_of_mem hnodup'
  rw [mem_linesOf_mergeBreakpoints]
  right
  exact List.mem_map_of_mem _ hbp

/-- Counterexample to **C3** as stated.  First scenario: on an empty registry,
`set_breakpoints` with lines 10 and 20, where the adapter corrects line 10 to
line 20 (a real CDP behaviour), leaves no entry for line 10 and a duplicated
line 20.  Second scenario: a session state whose stored list already has
duplicate lines keeps them even under a line-echoing adapter. -/
theorem set_breakpoints_one_entry_per_line_counterexample :
    (linesOf (getBreakpointsForFile
      (set_breakpoints (createSessionState "session-1") "/tmp/a.js"
        [⟨10, none, none, none, none⟩, ⟨20, none, none, none, none⟩]
        [⟨some 0, true, some 20, none⟩, ⟨some 1, true, some 20, none⟩]).state
      "/tmp/a.js")).count 10 = 0 ∧
    ¬ (linesOf (getBreakpointsForFile
      (set_breakpoints (createSessionState "session-1") "/tmp/a.js"
        [⟨10, none, none, none, none⟩, ⟨20, none, none, none, none⟩]
        [⟨some 0, true, some 20, none⟩, ⟨some 1, true, some 20, none⟩]).state
      "/tmp/a.js")).Nodup ∧
    ¬ (linesOf (getBreakpointsForFile
      (set_breakpoints
        ⟨"session-2",
         [("/tmp/b.js", [⟨5, none, none, none, none, true, none⟩,
           ⟨5, none, some "i>0", none, none, true, none⟩])], none, none⟩
        "/tmp/b.js" [⟨7, none, none, none, none⟩]
        [⟨some 0, true, some 5, none⟩, ⟨some 1, true, some 5, none⟩,
         ⟨some 2, true, some 7, none⟩]).state
      "/tmp/b.js")).Nodup := by
  decide

/-- Witness for `set_breakpoints_one_entry_per_line` at a concrete echoing
adapter response. -/
theorem set_breakpoints_one_entry_per_line_witness :
    (∀ bp ∈ ([⟨10, none, none, none, none⟩, ⟨20, none, none, none, none⟩] :
        List SourceBreakpoint),
      (linesOf (getBreakpointsForFile
        (set_breakpoints (createSessionState "session-3") "/tmp/c.js"
          [⟨10, none, none, none, none⟩, ⟨20, none, none, none, none⟩]
          [⟨some 0, true, some 10, none⟩, ⟨some 1, true, some 20, none⟩]).state
        "/tmp/c.js")).count bp.line = 1) ∧
    (linesOf (getBreakpointsForFile
      (set_breakpoints (createSessionState "session-3") "/tmp/c.js"
        [⟨10, none, none, none, none⟩, ⟨20, none, none, none, none⟩]
        [⟨some 0, true, some 10, none⟩, ⟨some 1, true, some 20, none⟩]).state
      "/tmp/c.js")).Nodup :=
  set_breakpoints_one_entry_per_line (createSessionState "session-3") "/tmp/c.js"
    [⟨10, none, none, none, none⟩, ⟨20, none, none, none, none⟩]
    [⟨some 0, true, some 10, none⟩, ⟨some 1, true, some 20, none⟩]
    (by decide) (by decide)

theorem assocSet_nil (k : String) (v : List BreakpointInfo) : assocSet [] k v = [(k, v)] := rfl

theorem assocSet_cons (p : String × List BreakpointInfo) (rest : BreakpointRegistry)
    (k : String) (v : List BreakpointInfo) :
    assocSet (p :: rest) k v = if p.1 == k then (k, v) :: rest else p :: assocSet rest k v := rfl

theorem assocSet_assocSet (m : BreakpointRegistry) (k : String) (v : List BreakpointInfo) :
    assocSet (assocSet m k v) k v = assocSet m k v := by
  induction m with
  | nil =>
    rw [assocSet_nil, assocSet_cons, if_pos (by simp)]
  | cons p rest ih =>
    by_cases h : (p.1 == k) = true
    · rw [assocSet_cons, if_pos h, assocSet_cons, if_pos (by simp)]
    · rw [assocSet_cons, if_neg h, assocSet_cons, if_neg h, ih]

theorem assocErase_assocErase (m : BreakpointRegistry) (k : String) :
    assocErase (assocErase m k) k = assocErase m k := by
  unfold assocErase
  rw [List.filter_filter]
  simp

theorem setBreakpointsForFile_idem (session : SessionState) (file : String)
    (u : List BreakpointInfo) :
    setBreakpointsForFile (setBreakpointsForFile session file u) file u =
      setBreakpointsForFile session file u := by
  unfold setBreakpointsForFile
  by_cases h : u.length = 0
  · rw [if_pos h, if_pos h]
    show ({ session with breakpoints := _ } : SessionState) = _
    rw [assocErase_assocErase]
  · rw [if_neg h, if_neg h]
    show ({ session with breakpoints := _ } : SessionState) = _
    rw [assocSet_assocSet]

theorem applyResults_congr_src {m1 m2 : List BreakpointInfo} (results : List BreakpointResult)
    (h : toSourceBreakpoints m1 = toSourceBreakpoints m2) :
    applyResults m1 results = applyResults m2 results := by
  apply List.ext_getElem?
  intro i
  rw [applyResults_getElem, applyResults_getElem]
  have hi := congrArg (fun l => l[i]?) h
  simp only [] at hi
  unfold toSourceBreakpoints at hi
  rw [List.getElem?_map, List.getElem?_map] at hi
  cases hm1 : m1[i]? with
  | none =>
    cases hm2 : m2[i]? with
    | none => rfl
    | some b2 =>
      rw [hm1, hm2] at hi
      simp at hi
  | some b1 =>
    cases hm2 : m2[i]? with
    | none =>
      rw [hm1, hm2] at hi
      simp at hi
    | some b2 =>
      rw [hm1, hm2] at hi
      rw [Option.map_some', Option.map_some'] at hi
      have hsrc := Option.some.inj hi
      rw [Option.map_some', Option.map_some']
      congr 1
      have hline : b1.line = b2.line := congrArg SourceBreakpoint.line hsrc
      have hcol : b1.column = b2.column := congrArg SourceBreakpoint.column hsrc
      have hcond : b1.condition = b2.condition := congrArg SourceBreakpoint.condition hsrc
      have hhit : b1.hitCondition = b2.hitCondition := congrArg SourceBreakpoint.hitCondition hsrc
      have hlog : b1.logMessage = b2.logMessage := congrArg SourceBreakpoint.logMessage hsrc
      unfold updatedInfo
      cases b1
      cases b2
      simp_all

theorem set_breakpoints_def (session : SessionState) (file : String)
    (L : List SourceBreakpoint) (results : List BreakpointResult) :
    set_breakpoints session file L results =
      ⟨setBreakpointsForFile session file
        (applyResults (mergeBreakpoints (getBreakpointsForFile session file) L) results),
       toSourceBreakpoints (mergeBreakpoints (getBreakpointsForFile session file) L),
       (applyResults (mergeBreakpoints (getBreakpointsForFile session file) L) results).map
         (fun bp => (bp.line, bp.verified, bp.condition))⟩ := rfl

/-- **C7 (amended).** As stated the claim fails (see the counterexample):
line-correcting responses change the merge keys, and differing responses
change the verified flags.  Amended: provided the adapter reports each
breakpoint at its requested line and answers the identical re-sent request
with the same result list, repeating `set_breakpoints(F, L)` re-sends the same
request and reproduces the same reported state and registry. -/
theorem set_breakpoints_idempotent (session : SessionState) (file : String)
    (L : List SourceBreakpoint) (results : List BreakpointResult)
    (hecho : echoResultsB (linesOf (mergeBreakpoints (getBreakpointsForFile session file) L))
      results = true) :
    (set_breakpoints (set_breakpoints session file L results).state file L results).sent =
      (set_breakpoints session file L results).sent ∧
    (set_breakpoints (set_breakpoints session file L results).state file L results).reported =
      (set_breakpoints session file L results).reported ∧
    (set_breakpoints (set_breakpoints session file L results).state file L results).state =
      (set_breakpoints session file L results).state := by
  have hE2 : getBreakpointsForFile (set_breakpoints session file L results).state file =
      applyResults (mergeBreakpoints (getBreakpointsForFile session file) L) results := by
    rw [set_breakpoints_def]
    exact getBreakpointsForFile_set session file _
  have hupd_src : toSourceBreakpoints
      (applyResults (mergeBreakpoints (getBreakpointsForFile session file) L) results) =
      toSourceBreakpoints (mergeBreakpoints (getBreakpointsForFile session file) L) :=
    applyResults_src hecho
  have hmerged2_src : toSourceBreakpoints
      (mergeBreakpoints
        (applyResults (mergeBreakpoints (getBreakpointsForFile session file) L) results) L) =
      toSourceBreakpoints (mergeBreakpoints (getBreakpointsForFile session file) L) := by
    calc toSourceBreakpoints (mergeBreakpoints
          (applyResults (mergeBreakpoints (getBreakpointsForFile session file) L) results) L)
        = toSourceBreakpoints (mergeBreakpoints
            (mergeBreakpoints (getBreakpointsForFile session file) L) L) :=
          mergeBreakpoints_src_congr L _ _ hupd_src
      _ = toSourceBreakpoints (mergeBreakpoints (getBreakpointsForFile session file) L) :=
          mergeBreakpoints_idem_src L (getBreakpointsForFile session file)
  have hupdated_eq : applyResults
      (mergeBreakpoints
        (applyResults (mergeBreakpoints (getBreakpointsForFile session file) L) results) L)
      results =
      applyResults (mergeBreakpoints (getBreakpointsForFile session file) L) results :=
    applyResults_congr_src results hmerged2_src
  refine ⟨?_, ?_, ?_⟩
  · show toSourceBreakpoints (mergeBreakpoints
      (getBreakpointsForFile (set_breakpoints session file L results).state file) L) = _
    rw [hE2, hmerged2_src]
    rfl
  · show (applyResults (mergeBreakpoints
      (getBreakpointsForFile (set_breakpoints session file L results).state file) L)
      results).map (fun bp => (bp.line, bp.verified, bp.condition)) = _
    rw [hE2, hupdated_eq]
    rfl
  · show setBreakpointsForFile (set_breakpoints session file L results).state file
      (applyResults (mergeBreakpoints
        (getBreakpointsForFile (set_breakpoints session file L results).state file) L)
        results) = _
    rw [hE2, hupdated_eq]
    rw [show (set_breakpoints session file L results).state = setBreakpointsForFile session file
      (applyResults (mergeBreakpoints (getBreakpointsForFile session file) L) results) from rfl]
    exact setBreakpointsForFile_idem session file _

/-- Counterexample to **C7** as stated ("for any adapter responses").  First
scenario: the adapter corrects requested line 10 to line 11; the second
identical call re-merges line 10 next to the stored corrected line 11, and the
re-sent two-entry request yields a two-entry reported state.  Second scenario:
with echoed lines but a response whose verified flag differs between the two
calls, the reported state also differs. -/
theorem set_breakpoints_idempotent_counterexample :
    (set_breakpoints
      (set_breakpoints (createSessionState "session-1") "/tmp/a.js"
        [⟨10, none, none, none, none⟩] [⟨some 0, true, some 11, none⟩]).state
      "/tmp/a.js" [⟨10, none, none, none, none⟩]
      [⟨some 0, true, some 11, none⟩, ⟨some 1, true, some 11, none⟩]).reported ≠
    (set_breakpoints (createSessionState "session-1") "/tmp/a.js"
      [⟨10, none, none, none, none⟩] [⟨some 0, true, some 11, none⟩]).reported ∧
    (set_breakpoints
      (set_breakpoints (createSessionState "session-2") "/tmp/b.js"
        [⟨10, none, none, none, none⟩] [⟨some 0, true, some 10, none⟩]).state
      "/tmp/b.js" [⟨10, none, none, none, none⟩]
      [⟨some 0, false, some 10, none⟩]).reported ≠
    (set_breakpoints (createSessionState "session-2") "/tmp/b.js"
      [⟨10, none, none, none, none⟩] [⟨some 0, true, some 10, none⟩]).reported := by
  decide

/-- Witness for `set_breakpoints_idempotent` at a concrete echoing response. -/
theorem set_breakpoints_idempotent_witness :
    (set_breakpoints
      (set_breakpoints (createSessionState "session-4") "/tmp/d.js"
        [⟨10, none, none, none, none⟩] [⟨some 0, true, some 10, none⟩]).state
      "/tmp/d.js" [⟨10, none, none, none, none⟩] [⟨some 0, true, some 10, none⟩]).sent =
    (set_breakpoints (createSessionState "session-4") "/tmp/d.js"
      [⟨10, none, none, none, none⟩] [⟨some 0, true, some 10, none⟩]).sent ∧
    (set_breakpoints
      (set_breakpoints (createSessionState "session-4") "/tmp/d.js"
        [⟨10, none, none, none, none⟩] [⟨some 0, true, some 10, none⟩]).state
      "/tmp/d.js" [⟨10, none, none, none, none⟩] [⟨some 0, true, some 10, none⟩]).reported =
    (set_breakpoints (createSessionState "session-4") "/tmp/d.js"
      [⟨10, none, none, none, none⟩] [⟨some 0, true, some 10, none⟩]).reported ∧
    (set_breakpoints
      (set_breakpoints (createSessionState "session-4") "/tmp/d.js"
        [⟨10, none, none, none, none⟩] [⟨some 0, true, some 10, none⟩]).state
      "/tmp/d.js" [⟨10, none, none, none, none⟩] [⟨some 0, true, some 10, none⟩]).state =
    (set_breakpoints (createSessionState "session-4") "/tmp/d.js"
      [⟨10, none, none, none, none⟩] [⟨some 0, true, some 10, none⟩]).state :=
  set_breakpoints_idempotent (createSessionState "session-4") "/tmp/d.js"
    [⟨10, none, none, none, none⟩] [⟨some 0, true, some 10, none⟩] (by decide)

/-! ## Session manager stopped-state tracking (session/manager.ts, tools/execution.ts) -/

structure StoppedInfo where
  reason : String
  threadId : Option Nat
  description : Option String
  deriving DecidableEq, Repr

structure StopLocation where
  file : Option String
  line : Option Nat
  column : Option Nat
  name : Option String
  deriving DecidableEq, Repr

structure StopResult where
  reason : String
  description : Option String
  threadId : Option Nat
  location : Option StopLocation
  terminated : Bool
  deriving DecidableEq, Repr

/-- The `onStopped` listener installed by `SessionManager.create`:
`stoppedThreadId = event.threadId ?? null; stoppedReason = event.reason`. -/
def onStoppedUpdate (s : SessionState) (info : StoppedInfo) : SessionState :=
  { s with stoppedThreadId := info.threadId, stoppedReason := some info.reason }

inductive ResumeOp
  | continueExec
  | stepOverOp
  | stepIntoOp
  | stepOutOp
  deriving DecidableEq, Repr

/-- The four execution tools (`continue_execution`, `step_over`, `step_into`,
`step_out`): they require an active session, forward to the adapter, and
return the session state as they found it — none of them writes the
`stopped*` fields. -/
def executeResumeTool (active : Option SessionState) (_op : ResumeOp)
    (adapterResult : StopResult) : Except String (SessionState × StopResult) :=
  match active with
  | none => .error "No active debug session. Use start_debug_session first."
  | some s => .ok (s, adapterResult)

inductive ManagerEvent
  | stopped (info : StoppedInfo)
  | resumeRequested (op : ResumeOp)
  deriving DecidableEq, Repr

/-- How a session state evolves under stopped events and resume attempts:
stopped events run the `onStopped` listener; resume attempts run the execution
tool, which leaves the session state unchanged. -/
def managerStep (s : SessionState) : ManagerEvent → SessionState
  | .stopped info => onStoppedUpdate s info
  | .resumeRequested _ => s

def runEvents : SessionState → List ManagerEvent → SessionState
  | s, [] => s
  | s, e :: es => runEvents (managerStep s e) es

/-- The (threadId, reason) pair of the most recent stopped event, starting
from a given pair. -/
def lastStoppedAcc : (Option Nat × Option String) → List ManagerEvent →
    (Option Nat × Option String)
  | acc, [] => acc
  | _, .stopped info :: es => lastStoppedAcc (info.threadId, some info.reason) es
  | acc, .resumeRequested _ :: es => lastStoppedAcc acc es

theorem runEvents_tracks (evts : List ManagerEvent) :
    ∀ s : SessionState,
      ((runEvents s evts).stoppedThreadId, (runEvents s evts).stoppedReason) =
        lastStoppedAcc (s.stoppedThreadId, s.stoppedReason) evts := by
  induction evts with
  | nil =>
    intro s
    rfl
  | cons e es ih =>
    intro s
    cases e with
    | stopped info =>
      show ((runEvents (onStoppedUpdate s info) es).stoppedThreadId,
        (runEvents (onStoppedUpdate s info) es).stoppedReason) = _
      rw [ih (onStoppedUpdate s info)]
      rfl
    | resumeRequested op =>
      show ((runEvents s es).stoppedThreadId, (runEvents s es).stoppedReason) = _
      rw [ih s]
      rfl

/-- **C4 (amended).** As stated the claim fails (see the counterexample): no
resume path ever nulls the `stopped*` fields.  Amended: the fields start null,
every stopped event overwrites them with that event's thread id and reason,
and resume attempts (all four execution tools) leave the session state —
including both fields — unchanged; hence after any event sequence they hold
the data of the most recent stopped event, not the current paused status. -/
theorem stopped_fields_track_last_stop :
    (∀ id, (createSessionState id).stoppedThreadId = none ∧
      (createSessionState id).stoppedReason = none) ∧
    (∀ s info, (managerStep s (.stopped info)).stoppedThreadId = info.threadId ∧
      (managerStep s (.stopped info)).stoppedReason = some info.reason) ∧
    (∀ s op, managerStep s (.resumeRequested op) = s) ∧
    (∀ s op r, executeResumeTool (some s) op r = .ok (s, r)) ∧
    (∀ op r, executeResumeTool none op r =
      .error "No active debug session. Use start_debug_session first.") ∧
    (∀ id evts, ((runEvents (createSessionState id) evts).stoppedThreadId,
      (runEvents (createSessionState id) evts).stoppedReason) =
        lastStoppedAcc (none, none) evts) :=
  ⟨fun _ => ⟨rfl, rfl⟩,
   fun _ _ => ⟨rfl, rfl⟩,
   fun _ _ => rfl,
   fun _ _ _ => rfl,
   fun _ _ => rfl,
   fun id evts => runEvents_tracks evts (createSessionState id)⟩

/-- Counterexample to **C4** as stated: after a breakpoint stop followed by a
resume attempt, the debuggee is running but both `stopped*` fields still hold
the old stop data — the resume attempt did not set them to null. -/
theorem stopped_fields_counterexample :
    (runEvents (createSessionState "session-1")
      [.stopped ⟨"breakpoint", some 1, none⟩,
       .resumeRequested .continueExec]).stoppedThreadId = some 1 ∧
    (runEvents (createSessionState "session-1")
      [.stopped ⟨"breakpoint", some 1, none⟩,
       .resumeRequested .continueExec]).stoppedReason = some "breakpoint" ∧
    (managerStep ⟨"session-1", [], some 1, some "breakpoint"⟩
      (.resumeRequested .continueExec)).stoppedReason ≠ none := by
  refine ⟨rfl, rfl, ?_⟩
  intro h
  cases h

/-! ## Stop-synchronization ordering (adapter/python.ts, <adapter/node.ts>) -/

inductive WireAction
  | register (cb : Nat)
  | write (command : String)
  deriving DecidableEq, Repr

/-- The observable adapter state for the ordering property: the
`stoppedCallbacks` array and the interleaved log of listener registrations and
wire writes, in program order. -/
structure AdapterTraceState where
  stoppedCallbacks : List Nat
  actions : List WireAction
  deriving DecidableEq, Repr

/-- Functions `waitForStop` (python) / `waitForPause` (node): the promise executor runs
synchronously and pushes the handler onto `stoppedCallbacks` at call time. -/
def pushPauseListener (s : AdapterTraceState) (cb : Nat) : AdapterTraceState :=
  ⟨s.stoppedCallbacks ++ [cb], s.actions ++ [.register cb]⟩

/-- Functions `DapClient.sendRequest` / `cdpSend`: the framed request is written to the
socket at call time. -/
def writeRequest (s : AdapterTraceState) (command : String) : AdapterTraceState :=
  ⟨s.stoppedCallbacks, s.actions ++ [.write command]⟩

def PythonAdapter.continueOp (s : AdapterTraceState) (cb : Nat) : AdapterTraceState :=
  writeRequest (pushPauseListener s cb) "continue"

def PythonAdapter.stepOverOp (s : AdapterTraceState) (cb : Nat) : AdapterTraceState :=
  writeRequest (pushPauseListener s cb) "next"

def PythonAdapter.stepInOp (s : AdapterTraceState) (cb : Nat) : AdapterTraceState :=
  writeRequest (pushPauseListener s cb) "stepIn"

def PythonAdapter.stepOutOp (s : AdapterTraceState) (cb : Nat) : AdapterTraceState :=
  writeRequest (pushPauseListener s cb) "stepOut"

def NodeAdapter.continueOp (s : AdapterTraceState) (cb : Nat) : AdapterTraceState :=
  writeRequest (pushPauseListener s cb) "Debugger.resume"

def NodeAdapter.stepOverOp (s : AdapterTraceState) (cb : Nat) : AdapterTraceState :=
  writeRequest (pushPauseListener s cb) "Debugger.stepOver"

def NodeAdapter.stepInOp (s : AdapterTraceState) (cb : Nat) : AdapterTraceState :=
  writeRequest (pushPauseListener s cb) "Debugger.stepInto"

def NodeAdapter.stepOutOp (s : AdapterTraceState) (cb : Nat) : AdapterTraceState :=
  writeRequest (pushPauseListener s cb) "Debugger.stepOut"

/-- The resume operation registers the pause-listener into the stopped-callback
list and its trace places that registration strictly before the resume
command's wire write. -/
def registersThenWrites (op : AdapterTraceState → Nat → AdapterTraceState)
    (command : String) : Prop :=
  ∀ s cb, (op s cb).stoppedCallbacks = s.stoppedCallbacks ++ [cb] ∧
    ∃ i j : Nat, i < j ∧ (op s cb).actions[i]? = some (.register cb) ∧
      (op s cb).actions[j]? = some (.write command)

theorem listenerThenWrite_spec (command : String) :
    registersThenWrites (fun s cb => writeRequest (pushPauseListener s cb) command) command := by
  intro s cb
  refine ⟨rfl, s.actions.length, s.actions.length + 1, by omega, ?_, ?_⟩
  · show ((s.actions ++ [WireAction.register cb]) ++ [WireAction.write command])[s.actions.length]? =
      some (WireAction.register cb)
    rw [List.append_assoc]
    rw [List.getElem?_append_right (Nat.le_refl _)]
    simp
  · show ((s.actions ++ [WireAction.register cb]) ++ [WireAction.write command])[s.actions.length + 1]? =
      some (WireAction.write command)
    rw [List.append_assoc]
    rw [List.getElem?_append_right (by omega)]
    have : s.actions.length + 1 - s.actions.length = 1 := by omega
    rw [this]
    rfl

/-- **C1.** For all eight resume operations (continue / step over / step in /
step out, on both the DAP python adapter and the CDP node adapter), the pause
listener is registered into the adapter's stopped-callback list and this
registration occurs strictly before the resume command is written to the
wire. -/
theorem resume_registers_listener_before_write :
    registersThenWrites PythonAdapter.continueOp "continue" ∧
    registersThenWrites PythonAdapter.stepOverOp "next" ∧
    registersThenWrites PythonAdapter.stepInOp "stepIn" ∧
    registersThenWrites PythonAdapter.stepOutOp "stepOut" ∧
    registersThenWrites NodeAdapter.continueOp "Debugger.resume" ∧
    registersThenWrites NodeAdapter.stepOverOp "Debugger.stepOver" ∧
    registersThenWrites NodeAdapter.stepInOp "Debugger.stepInto" ∧
    registersThenWrites NodeAdapter.stepOutOp "Debugger.stepOut" :=
  ⟨listenerThenWrite_spec "continue", listenerThenWrite_spec "next",
   listenerThenWrite_spec "stepIn", listenerThenWrite_spec "stepOut",
   listenerThenWrite_spec "Debugger.resume", listenerThenWrite_spec "Debugger.stepOver",
   listenerThenWrite_spec "Debugger.stepInto", listenerThenWrite_spec "Debugger.stepOut"⟩

/-- Witness for `resume_registers_listener_before_write` on a fresh trace. -/
theorem resume_registers_listener_before_write_witness :
    (PythonAdapter.continueOp ⟨[], []⟩ 0).stoppedCallbacks = [] ++ [0] ∧
    ∃ i j : Nat, i < j ∧
      (PythonAdapter.continueOp ⟨[], []⟩ 0).actions[i]? = some (.register 0) ∧
      (PythonAdapter.continueOp ⟨[], []⟩ 0).actions[j]? = some (.write "continue") :=
  resume_registers_listener_before_write.1 ⟨[], []⟩ 0

/-! ## Python adapter getVariables scope fallback (adapter/python.ts) -/

structure ScopeInfo where
  name : String
  variablesReference : Nat
  deriving DecidableEq, Repr

structure RawVariable where
  name : String
  value : String
  vtype : Option String
  variablesReference : Option Nat
  deriving DecidableEq, Repr

structure DapVariable where
  name : String
  value : String
  vtype : Option String
  variablesReference : Nat
  deriving DecidableEq, Repr

/-- Whether `pat` is a leading segment of `l`. -/
def listLeads : List Char → List Char → Bool
  | [], _ => true
  | _ :: _, [] => false
  | a :: as, b :: bs => a == b && listLeads as bs

def strToLower (s : String) : String := String.mk (s.toList.map Char.toLower)

/-- JavaScript `String.prototype.includes`, on the character sequence. -/
def strContainsSub (s sub : String) : Bool :=
  (List.range (s.toList.length + 1)).any (fun i => listLeads sub.toList (s.toList.drop i))

/-- The scope filter in `PythonAdapter.getVariables`: a requested scope is
matched case-insensitively; with no request, scopes named `Locals`/`Local` or
containing "local" are selected. -/
def selectScopes (scope : Option String) (scopes : List ScopeInfo) : List ScopeInfo :=
  match scope with
  | some sc => scopes.filter (fun s => strToLower s.name == strToLower sc)
  | none => scopes.filter (fun s =>
      s.name == "Locals" || s.name == "Local" || strContainsSub (strToLower s.name) "local")

def renderVariable (v : RawVariable) : DapVariable :=
  ⟨v.name, v.value, v.vtype, v.variablesReference.getD 0⟩

/-- Method `PythonAdapter.getVariables`, with the adapter's `scopes` and `variables`
request responses supplied as oracles. -/
def pythonGetVariables (frameIds : List Nat) (frameId : Option Nat) (scope : Option String)
    (scopesOf : Nat → List ScopeInfo) (varsOf : Nat → List RawVariable) : List DapVariable :=
  match frameId <|> frameIds[0]? with
  | none => []
  | some targetFrameId =>
    let scopes := scopesOf targetFrameId
    let targetScopes := selectScopes scope scopes
    let chosen := if targetScopes.length > 0 then targetScopes else scopes.take 1
    chosen.foldl (fun acc s => acc ++ (varsOf s.variablesReference).map renderVariable) []

/-- **C10.** When the scope filter matches nothing but the frame has scopes,
`getVariables` falls back to the first scope in the list and returns its
variables rather than an empty list. -/
theorem python_getVariables_first_scope_fallback (frameIds : List Nat) (frameId : Option Nat)
    (scope : Option String) (scopesOf : Nat → List ScopeInfo)
    (varsOf : Nat → List RawVariable) (fid : Nat) (s0 : ScopeInfo) (ss : List ScopeInfo)
    (hframe : (frameId <|> frameIds[0]?) = some fid)
    (hscopes : scopesOf fid = s0 :: ss)
    (hfilter : selectScopes scope (scopesOf fid) = []) :
    pythonGetVariables frameIds frameId scope scopesOf varsOf =
      (varsOf s0.variablesReference).map renderVariable := by
  unfold pythonGetVariables
  rw [hframe]
  rw [hscopes] at hfilter
  simp only [hscopes, hfilter, List.length_nil, gt_iff_lt, Nat.lt_irrefl, if_false,
    List.take_succ_cons, List.take_zero, List.foldl_cons, List.foldl_nil, List.nil_append]

/-- Witness for `python_getVariables_first_scope_fallback`: no scope requested,
the frame's single scope is named `Globals` (no "local" match), yet its
variables are returned. -/
theorem python_getVariables_first_scope_fallback_witness :
    pythonGetVariables [0] none none (fun _ => [⟨"Globals", 5⟩])
      (fun r => if r == 5 then [⟨"x", "1", some "int", none⟩] else []) =
      ((fun r : Nat => if r == 5 then [⟨"x", "1", some "int", none⟩] else []) 5).map
        renderVariable :=
  python_getVariables_first_scope_fallback [0] none none (fun _ => [⟨"Globals", 5⟩])
    (fun r => if r == 5 then [⟨"x", "1", some "int", none⟩] else []) 0 ⟨"Globals", 5⟩ []
    rfl rfl (by rfl)

/-! ## DAP correlator (dap/client.ts `handleMessage`, `connect` close handler) -/

inductive JsonLite
  | str (s : String)
  | num (n : Nat)
  | bool (b : Bool)
  | null
  deriving DecidableEq, Repr

structure DapResponse where
  seq : Nat
  request_seq : Nat
  success : Bool
  command : String
  message : Option String
  body : Option JsonLite
  deriving DecidableEq, Repr

structure DapEvent where
  seq : Nat
  event : String
  body : Option JsonLite
  deriving DecidableEq, Repr

inductive DapMsg
  | response (r : DapResponse)
  | event (e : DapEvent)
  | other
  deriving DecidableEq, Repr

inductive SettleOutcome
  | fulfilled (r : DapResponse)
  | failed (message : String)
  deriving DecidableEq, Repr

/-- The client's observable state: pending request seqs, the log of promise
settlements, the dispatched events, and the framing byte buffer. -/
structure DapClientState where
  pending : List Nat
  settled : List (Nat × SettleOutcome)
  eventsSeen : List (String × Option JsonLite)
  buffer : List Char
  deriving DecidableEq, Repr

/-- Method `DapClient.handleMessage`: a response settles (and removes) the matching
pending entry — fulfilled with the successful response carrying its body,
failed with `message` or the synthetic `Request failed: <command>` otherwise;
an event fans out to the registered handlers; anything else is ignored. -/
def handleMessage (st : DapClientState) : DapMsg → DapClientState
  | .response r =>
    if r.request_seq ∈ st.pending then
      { st with
        pending := st.pending.erase r.request_seq
        settled := st.settled ++ [(r.request_seq,
          if r.success then .fulfilled r
          else .failed (r.message.getD ("Request failed: " ++ r.command)))] }
    else st
  | .event e => { st with eventsSeen := st.eventsSeen ++ [(e.event, e.body)] }
  | .other => st

/-- The socket `close` handler registered in `DapClient.connect`. -/
def handleClose (st : DapClientState) : DapClientState :=
  { st with
    pending := []
    settled := st.settled ++ st.pending.map (fun s => (s, .failed "Connection closed")) }

/-- **C5.** Pending entries are settled and removed exactly once: a matching
response removes the entry and fulfils with the response if `success`, else
fails with `message` or `Request failed: <command>`; a second identical
response is a no-op, as is a response with no pending match; transport close
fails every remaining entry with `Connection closed` and clears the table. -/
theorem dap_correlator_settles_exactly_once :
    (∀ (st : DapClientState) (r : DapResponse), r.request_seq ∈ st.pending →
      st.pending.Nodup →
      (handleMessage st (.response r)).pending = st.pending.erase r.request_seq ∧
      r.request_seq ∉ (handleMessage st (.response r)).pending ∧
      (handleMessage st (.response r)).settled = st.settled ++ [(r.request_seq,
        if r.success then .fulfilled r
        else .failed (r.message.getD ("Request failed: " ++ r.command)))] ∧
      handleMessage (handleMessage st (.response r)) (.response r) =
        handleMessage st (.response r)) ∧
    (∀ (st : DapClientState) (r : DapResponse), r.request_seq ∉ st.pending →
      handleMessage st (.response r) = st) ∧
    (∀ st : DapClientState, (handleClose st).pending = [] ∧
      (handleClose st).settled =
        st.settled ++ st.pending.map (fun s => (s, SettleOutcome.failed "Connection closed"))) := by
  refine ⟨?_, ?_, fun st => ⟨rfl, rfl⟩⟩
  · intro st r hmem hnd
    have hstep : handleMessage st (.response r) =
        { st with
          pending := st.pending.erase r.request_seq
          settled := st.settled ++ [(r.request_seq,
            if r.success then .fulfilled r
            else .failed (r.message.getD ("Request failed: " ++ r.command)))] } := by
      simp only [handleMessage]
      rw [if_pos hmem]
    have hnotmem : r.request_seq ∉ st.pending.erase r.request_seq := by
      intro hc
      exact ((hnd.mem_erase_iff).mp hc).1 rfl
    refine ⟨by rw [hstep], by rw [hstep]; exact hnotmem, by rw [hstep], ?_⟩
    rw [hstep]
    simp only [handleMessage]
    rw [if_neg hnotmem]
  · intro st r hmem
    simp only [handleMessage]
    rw [if_neg hmem]

/-- Witness for `dap_correlator_settles_exactly_once`: seq 7 pending, a
successful `next` response settles it once. -/
theorem dap_correlator_settles_exactly_once_witness :
    (handleMessage ⟨[7], [], [], []⟩ (.response ⟨1, 7, true, "next", none, none⟩)).pending =
      ([7] : List Nat).erase 7 ∧
    (7 : Nat) ∉ (handleMessage ⟨[7], [], [], []⟩
      (.response ⟨1, 7, true, "next", none, none⟩)).pending ∧
    (handleMessage ⟨[7], [], [], []⟩ (.response ⟨1, 7, true, "next", none, none⟩)).settled =
      [] ++ [(7, if (true : Bool) then SettleOutcome.fulfilled ⟨1, 7, true, "next", none, none⟩
        else .failed ((none : Option String).getD ("Request failed: " ++ "next")))] ∧
    handleMessage (handleMessage ⟨[7], [], [], []⟩
        (.response ⟨1, 7, true, "next", none, none⟩))
      (.response ⟨1, 7, true, "next", none, none⟩) =
      handleMessage ⟨[7], [], [], []⟩ (.response ⟨1, 7, true, "next", none, none⟩) :=
  dap_correlator_settles_exactly_once.1 ⟨[7], [], [], []⟩ ⟨1, 7, true, "next", none, none⟩
    (by decide) (by decide)

/-! ## DAP framing decoder (dap/client.ts `onData`) -/

def crlf2 : List Char := ['\r', '\n', '\r', '\n']

/-- Method `Buffer.indexOf`: index of the first occurrence of `pat` in `buf`. -/
def findSub (buf pat : List Char) : Option Nat :=
  (List.range (buf.length + 1)).find? (fun i => listLeads pat (buf.drop i))

def isWsChar (c : Char) : Bool := c == ' ' || c == '\t' || c == '\r' || c == '\n'

def digitsToNat (l : List Char) : Nat :=
  l.foldl (fun acc c => acc * 10 + (c.toNat - '0'.toNat)) 0

def lowerChars (l : List Char) : List Char := l.map Char.toLower

/-- Candidate match of `/Content-Length:\s*(\d+)/i` at position `i`. -/
def parseCLAt (header : List Char) (i : Nat) : Option Nat :=
  if listLeads "content-length:".toList (lowerChars (header.drop i)) then
    let after := (header.drop (i + 15)).dropWhile isWsChar
    let digits := after.takeWhile Char.isDigit
    if digits.isEmpty then none else some (digitsToNat digits)
  else none

/-- Leftmost match of the Content-Length header pattern, as used by
`header.match(/Content-Length:\s*(\d+)/i)` plus `parseInt`. -/
def parseContentLength (header : List Char) : Option Nat :=
  (List.range (header.length + 1)).findSome? (parseCLAt header)

/-! A small JSON reader standing in for `JSON.parse` on the flat objects the
protocol messages use (string, number, boolean and null fields; no escapes). -/

def skipWs (l : List Char) : List Char := l.dropWhile isWsChar

def parseStringLit : List Char → Option (String × List Char)
  | '"' :: rest =>
    let content := rest.takeWhile (fun c => !(c == '"'))
    match rest.drop content.length with
    | '"' :: tail => some (String.mk content, tail)
    | _ => none
  | _ => none

def parseScalar (l : List Char) : Option (JsonLite × List Char) :=
  match parseStringLit l with
  | some (s, rest) => some (.str s, rest)
  | none =>
    if listLeads "true".toList l then some (.bool true, l.drop 4)
    else if listLeads "false".toList l then some (.bool false, l.drop 5)
    else if listLeads "null".toList l then some (.null, l.drop 4)
    else
      let digits := l.takeWhile Char.isDigit
      if digits.isEmpty then none else some (.num (digitsToNat digits), l.drop digits.length)

def parsePairs : Nat → List Char → List (String × JsonLite) → Option (List (String × JsonLite))
  | 0, _, _ => none
  | fuel + 1, l, acc =>
    match parseStringLit (skipWs l) with
    | none => none
    | some (key, rest) =>
      match skipWs rest with
      | ':' :: rest2 =>
        match parseScalar (skipWs rest2) with
        | none => none
        | some (v, rest3) =>
          match skipWs rest3 with
          | ',' :: rest4 => parsePairs fuel rest4 (acc ++ [(key, v)])
          | '\x7d' :: rest5 => if (skipWs rest5).isEmpty then some (acc ++ [(key, v)]) else none
          | _ => none
      | _ => none

def parseJsonObj (l : List Char) : Option (List (String × JsonLite)) :=
  match skipWs l with
  | '\x7b' :: rest =>
    match skipWs rest with
    | '\x7d' :: rest2 => if (skipWs rest2).isEmpty then some [] else none
    | _ => parsePairs (l.length + 1) rest []
  | _ => none

def jGet (fields : List (String × JsonLite)) (k : String) : Option JsonLite :=
  (fields.find? (fun p => p.1 == k)).map (·.2)

def jGetStr (fields : List (String × JsonLite)) (k : String) : Option String :=
  match jGet fields k with
  | some (.str s) => some s
  | _ => none

def jGetNat (fields : List (String × JsonLite)) (k : String) : Option Nat :=
  match jGet fields k with
  | some (.num n) => some n
  | _ => none

def jGetBool (fields : List (String × JsonLite)) (k : String) : Option Bool :=
  match jGet fields k with
  | some (.bool b) => some b
  | _ => none

/-- Function `JSON.parse` plus the `message.type` dispatch of `handleMessage`: decode a
frame body into the message shape the correlator consumes.  Missing fields
default the way untyped JavaScript reads them (absent `success` is falsy,
absent `command` renders as `undefined`). -/
def parseDapMessage (content : List Char) : Option DapMsg :=
  match parseJsonObj content with
  | none => none
  | some fields =>
    match jGetStr fields "type" with
    | some "response" => some (.response
        ⟨(jGetNat fields "seq").getD 0,
         (jGetNat fields "request_seq").getD 0,
         (jGetBool fields "success").getD false,
         (jGetStr fields "command").getD "undefined",
         jGetStr fields "message",
         jGet fields "body"⟩)
    | some "event" => some (.event
        ⟨(jGetNat fields "seq").getD 0,
         (jGetStr fields "event").getD "undefined",
         jGet fields "body"⟩)
    | _ => some .other

/-- The `while (true)` framing loop of `DapClient.onData`.  Every iteration
either returns or drops at least four bytes, so buffer length plus one is
enough fuel. -/
def runOnData : Nat → DapClientState → DapClientState
  | 0, st => st
  | fuel + 1, st =>
    match findSub st.buffer crlf2 with
    | none => st
    | some headerEnd =>
      match parseContentLength (st.buffer.take headerEnd) with
      | none => runOnData fuel { st with buffer := st.buffer.drop (headerEnd + 4) }
      | some contentLength =>
        if st.buffer.length < headerEnd + 4 + contentLength then st
        else
          match parseDapMessage ((st.buffer.drop (headerEnd + 4)).take contentLength) with
          | some msg => runOnData fuel
              (handleMessage { st with buffer := st.buffer.drop (headerEnd + 4 + contentLength) } msg)
          | none => runOnData fuel { st with buffer := st.buffer.drop (headerEnd + 4 + contentLength) }

def onData (st : DapClientState) (data : List Char) : DapClientState :=
  runOnData ((st.buffer ++ data).length + 1) { st with buffer := st.buffer ++ data }

theorem runOnData_no_header (fuel : Nat) (st : DapClientState)
    (h : findSub st.buffer crlf2 = none) : runOnData (fuel + 1) st = st := by
  simp only [runOnData, h]

theorem runOnData_buffer_nil (fuel : Nat) (st : DapClientState) (h : st.buffer = []) :
    runOnData fuel st = st := by
  cases fuel with
  | zero => rfl
  | succ n =>
    apply runOnData_no_header
    rw [h]
    rfl

theorem runOnData_discard (fuel : Nat) (st : DapClientState) (headerEnd : Nat)
    (h1 : findSub st.buffer crlf2 = some headerEnd)
    (h2 : parseContentLength (st.buffer.take headerEnd) = none) :
    runOnData (fuel + 1) st =
      runOnData fuel { st with buffer := st.buffer.drop (headerEnd + 4) } := by
  simp only [runOnData, h1, h2]

theorem runOnData_message (fuel : Nat) (st : DapClientState) (headerEnd contentLength : Nat)
    (msg : DapMsg)
    (h1 : findSub st.buffer crlf2 = some headerEnd)
    (h2 : parseContentLength (st.buffer.take headerEnd) = some contentLength)
    (h3 : ¬ st.buffer.length < headerEnd + 4 + contentLength)
    (h4 : parseDapMessage ((st.buffer.drop (headerEnd + 4)).take contentLength) = some msg) :
    runOnData (fuel + 1) st =
      runOnData fuel
        (handleMessage { st with buffer := st.buffer.drop (headerEnd + 4 + contentLength) }
          msg) := by
  simp only [runOnData, h1, h2, h4]
  rw [if_neg h3]

theorem length_crlf2_triple (a b : List Char) :
    (a ++ crlf2 ++ b).length = a.length + 4 + b.length := by
  simp [crlf2]
  omega

theorem take_before_crlf2 (a b : List Char) : (a ++ crlf2 ++ b).take a.length = a := by
  rw [List.append_assoc, List.take_left]

theorem drop_past_crlf2 (a b : List Char) : (a ++ crlf2 ++ b).drop (a.length + 4) = b := by
  rw [List.append_assoc]
  rw [← List.drop_drop 4 a.length (a ++ (crlf2 ++ b))]
  rw [List.drop_left]
  rw [show (4 : Nat) = crlf2.length from rfl, List.drop_left]

/-- **C6.** A frame whose header has no Content-Length field, immediately
followed by a well-formed frame carrying a successful response to a pending
seq, is recovered from: the malformed bytes are discarded, framing advances
past them, and the pending request for that seq resolves normally. -/
theorem dap_decoder_recovers_after_malformed_frame
    (G clHeader body : List Char) (r : DapResponse) (pending : List Nat)
    (settled0 : List (Nat × SettleOutcome)) (evs : List (String × Option JsonLite))
    (hG1 : findSub (G ++ crlf2 ++ (clHeader ++ crlf2 ++ body)) crlf2 = some G.length)
    (hG2 : parseContentLength G = none)
    (hF1 : findSub (clHeader ++ crlf2 ++ body) crlf2 = some clHeader.length)
    (hF2 : parseContentLength clHeader = some body.length)
    (hbody : parseDapMessage body = some (.response r))
    (hsuccess : r.success = true)
    (hpend : r.request_seq ∈ pending) :
    onData ⟨pending, settled0, evs, []⟩ (G ++ crlf2 ++ (clHeader ++ crlf2 ++ body)) =
      ⟨pending.erase r.request_seq, settled0 ++ [(r.request_seq, .fulfilled r)], evs, []⟩ := by
  show runOnData ((G ++ crlf2 ++ (clHeader ++ crlf2 ++ body)).length + 1)
    ⟨pending, settled0, evs, G ++ crlf2 ++ (clHeader ++ crlf2 ++ body)⟩ = _
  rw [length_crlf2_triple G (clHeader ++ crlf2 ++ body)]
  rw [runOnData_discard (G.length + 4 + (clHeader ++ crlf2 ++ body).length)
    ⟨pending, settled0, evs, G ++ crlf2 ++ (clHeader ++ crlf2 ++ body)⟩ G.length hG1
    (by rw [take_before_crlf2 G (clHeader ++ crlf2 ++ body)]; exact hG2)]
  rw [show ((⟨pending, settled0, evs,
      G ++ crlf2 ++ (clHeader ++ crlf2 ++ body)⟩ : DapClientState)).buffer.drop
      (G.length + 4) = clHeader ++ crlf2 ++ body from
    drop_past_crlf2 G (clHeader ++ crlf2 ++ body)]
  rw [show G.length + 4 + (clHeader ++ crlf2 ++ body).length =
    (G.length + 3 + (clHeader ++ crlf2 ++ body).length) + 1 by omega]
  rw [runOnData_message (G.length + 3 + (clHeader ++ crlf2 ++ body).length)
    ⟨pending, settled0, evs, clHeader ++ crlf2 ++ body⟩ clHeader.length body.length
    (.response r) hF1
    (by rw [show ((⟨pending, settled0, evs,
        clHeader ++ crlf2 ++ body⟩ : DapClientState)).buffer.take clHeader.length =
        clHeader from take_before_crlf2 clHeader body]; exact hF2)
    (by rw [show ((⟨pending, settled0, evs,
        clHeader ++ crlf2 ++ body⟩ : DapClientState)).buffer.length =
        clHeader.length + 4 + body.length from length_crlf2_triple clHeader body]; omega)
    (by rw [show ((⟨pending, settled0, evs,
        clHeader ++ crlf2 ++ body⟩ : DapClientState)).buffer.drop
        (clHeader.length + 4) = body from drop_past_crlf2 clHeader body]
        rw [List.take_length]
        exact hbody)]
  rw [show ((⟨pending, settled0, evs,
      clHeader ++ crlf2 ++ body⟩ : DapClientState)).buffer.drop
      (clHeader.length + 4 + body.length) = [] by
    rw [show clHeader.length + 4 + body.length = (clHeader ++ crlf2 ++ body).length from
      (length_crlf2_triple clHeader body).symm]
    exact List.drop_length _]
  rw [show handleMessage (⟨pending, settled0, evs, ([] : List Char)⟩ : DapClientState)
      (.response r) =
      (⟨pending.erase r.request_seq, settled0 ++ [(r.request_seq, .fulfilled r)],
        evs, []⟩ : DapClientState) by
    simp only [handleMessage]
    rw [if_pos hpend, hsuccess, if_pos rfl]]
  exact runOnData_buffer_nil _ _ rfl

set_option maxRecDepth 8192 in
/-- Witness for `dap_decoder_recovers_after_malformed_frame`: a header without
Content-Length, then a valid 75-byte response frame for pending seq 7. -/
theorem dap_decoder_recovers_after_malformed_frame_witness :
    onData ⟨[7, 3], [], [], []⟩
      ("BOGUS HEADER NO LENGTH".toList ++ crlf2 ++
        ("Content-Length: 75".toList ++ crlf2 ++
          "\x7b\"type\":\"response\",\"request_seq\":7,\"success\":true,\"command\":\"next\",\"seq\":9\x7d".toList)) =
      ⟨([7, 3] : List Nat).erase 7,
       [] ++ [(7, .fulfilled ⟨9, 7, true, "next", none, none⟩)], [], []⟩ :=
  dap_decoder_recovers_after_malformed_frame "BOGUS HEADER NO LENGTH".toList
    "Content-Length: 75".toList
    "\x7b\"type\":\"response\",\"request_seq\":7,\"success\":true,\"command\":\"next\",\"seq\":9\x7d".toList
    ⟨9, 7, true, "next", none, none⟩ [7, 3] [] [] (by rfl) (by rfl) (by rfl) (by rfl)
    (by rfl) rfl (by decide)
